import Mathlib

/-!
Verification development for the Ledger Namada signing core
(`app/src/crypto.c`): transaction signing assembly, signature-section
hashing, and MASP commitment verification.

Bytes are modelled as `List Nat` (each entry a byte value); external host
primitives (BIP32 derivation, ed25519 signing, SHA-256, value-commitment
arithmetic, the persistent randomness store) are parameters of the model,
as the spec declares them external collaborators.
-/

deriving instance DecidableEq for Except

namespace Namada

/-- A byte string: each entry is intended to be `< 256`. -/
abbrev Bytes := List Nat

/-- `n` zero bytes (the result of `MEMZERO` over an `n`-byte region). -/
def zeros (n : Nat) : Bytes := List.replicate n 0

/-- Normalize an externally produced byte string to exactly `n` bytes,
matching a C callee that writes exactly `n` bytes into a caller buffer. -/
def padTake (n : Nat) (l : Bytes) : Bytes := (l ++ zeros n).take n

/-- Overwrite `data.length` bytes of `buf` starting at `pos`
(C `MEMCPY(buf + pos, data, len)`). -/
def writeAt (buf : Bytes) (pos : Nat) (data : Bytes) : Bytes :=
  buf.take pos ++ data ++ buf.drop (pos + data.length)

/-- Read `n` bytes of `buf` starting at `pos` (a C pointer `buf + pos`
with `n` bytes of interest). -/
def slice (buf : Bytes) (pos n : Nat) : Bytes := (buf.drop pos).take n

/-- 4-byte little-endian encoding of a 32-bit counter, as hashed by
`cx_sha256_update(&sha256, (uint8_t*)&len, 4)` on the little-endian target. -/
def le32 (n : Nat) : Bytes :=
  [n % 256, n / 256 % 256, n / 65536 % 256, n / 16777216 % 256]

/-- Little-endian decoding of a byte string (C `readUint64`). -/
def decodeLE (l : Bytes) : Nat := l.foldr (fun b acc => b + 256 * acc) 0

/-- 8-byte little-endian encoding of a `u64`. -/
def le64 (n : Nat) : Bytes :=
  [n % 256, n / 256 % 256, n / 65536 % 256, n / 16777216 % 256,
   n / 4294967296 % 256, n / 1099511627776 % 256,
   n / 281474976710656 % 256, n / 72057594037927936 % 256]

/-! ### Constants from `coin.h` / `parser_txdef.h` / `crypto.c` -/

def HASH_LEN : Nat := 32
def SALT_LEN : Nat := 32
def KEY_LENGTH : Nat := 32
def PK_LEN_25519 : Nat := 32
def PK_LEN_25519_PLUS_TAG : Nat := 33
def ED25519_SIGNATURE_SIZE : Nat := 64
def SIG_LEN_25519_PLUS_TAG : Nat := 65
def COMPRESSED_SECP256K1_PK_LEN : Nat := 33
def SIG_SECP256K1_LEN : Nat := 65
/-- `#define MAX_SIGNATURE_HASHES 10` in the 2024 `crypto.c`. -/
def MAX_SIGNATURE_HASHES : Nat := 10
/-- `#define DISCRIMINANT_HEADER 0x06`. -/
def DISCRIMINANT_HEADER : Nat := 6

/-- `signing_key_type_e` value for ed25519 keys. -/
def key_ed25519 : Nat := 0
/-- `signing_key_type_e` value for secp256k1 keys. -/
def key_secp256k1 : Nat := 1

/-- Signer-kind discriminant for the `PubKeys` variant of a signature
section. -/
def PubKeysDisc : Nat := 0
/-- Signer-kind discriminant for the `Address` variant. -/
def AddressDisc : Nat := 1

/-- Error kinds of `zxerror.h` that this core uses. -/
inductive Zxerr
  | ok
  | unknown
  | invalid_crypto_settings
  | no_data
  | buffer_too_small
  | encoding_failed
  | out_of_bounds
deriving DecidableEq

/-- Parser error kinds (`parser_error_t`) used by the MASP checks. -/
inductive PErr
  | unexpectedError
  | invalidNumberOfSpends
  | invalidNumberOfOutputs
  | invalidCv
  | invalidRk
  | bufEnd
deriving DecidableEq

/-! ### Signature sections and `crypto_hashSigSection` -/

/-- `signature_section_t`: a (parsed or under-construction) signature
section.  `hashes` is the section's hash list, `pubKeys` the raw bytes of
its concatenated tagged public keys, `indexedSignatures` the raw bytes of
its concatenated `(index, tag, signature)` entries; `idx` is the section's
index in the transaction. -/
structure SignatureSection where
  salt : Bytes
  hashes : List Bytes
  signerDiscriminant : Nat
  pubKeysLen : Nat
  pubKeys : Bytes
  addressBytes : Bytes
  signaturesLen : Nat
  indexedSignatures : Bytes
  idx : Nat
deriving DecidableEq

/-- The tag-walk over the concatenated tagged public keys in
`crypto_hashSigSection` (the `for` loop over `pubKeysLen`): returns the
total byte length of the walked keys, or `zxerr_unknown` on an
unrecognized key-kind tag. -/
def pubkeysWalk (buf : Bytes) : Nat → Nat → Except Zxerr Nat
  | 0, pos => .ok pos
  | n + 1, pos =>
    let tag := buf.getD pos 0
    if tag = key_ed25519 then pubkeysWalk buf n (pos + 1 + PK_LEN_25519)
    else if tag = key_secp256k1 then
      pubkeysWalk buf n (pos + 1 + COMPRESSED_SECP256K1_PK_LEN)
    else .error .unknown

/-- The walk over the concatenated indexed signatures in
`crypto_hashSigSection` (1-byte slot index, 1-byte key-kind tag, then the
signature proper). -/
def sigsWalk (buf : Bytes) : Nat → Nat → Except Zxerr Nat
  | 0, pos => .ok pos
  | n + 1, pos =>
    let tag := buf.getD (pos + 1) 0
    if tag = key_ed25519 then sigsWalk buf n (pos + 2 + ED25519_SIGNATURE_SIZE)
    else if tag = key_secp256k1 then
      sigsWalk buf n (pos + 2 + SIG_SECP256K1_LEN)
    else .error .unknown

/-- The exact byte stream fed to SHA-256 by `crypto_hashSigSection`
(2024 version, `crypto.c:521`): optional prefix byte, 4-byte hash count,
the concatenated 32-byte hashes, the 1-byte signer discriminant, the
signer payload (tag-walked public keys or raw address bytes), the 4-byte
signature count, and the tag-walked indexed signatures.  Fails with
`zxerr_unknown` on an invalid key-kind tag and with
`zxerr_invalid_crypto_settings` on an unknown discriminant. -/
def crypto_hashSigSection_stream (pfx : Option Nat) (s : SignatureSection) :
    Except Zxerr Bytes :=
  let pre : Bytes := match pfx with | some p => [p % 256] | none => []
  let base : Bytes :=
    pre ++ le32 s.hashes.length ++ (s.hashes.map (padTake HASH_LEN)).flatten ++
      [s.signerDiscriminant % 256]
  let payload : Except Zxerr Bytes :=
    if s.signerDiscriminant = PubKeysDisc then
      match pubkeysWalk s.pubKeys s.pubKeysLen 0 with
      | .error e => .error e
      | .ok pos => .ok (le32 s.pubKeysLen ++ s.pubKeys.take pos)
    else if s.signerDiscriminant = AddressDisc then .ok s.addressBytes
    else .error .invalid_crypto_settings
  match payload with
  | .error e => .error e
  | .ok pl =>
    match sigsWalk s.indexedSignatures s.signaturesLen 0 with
    | .error e => .error e
    | .ok pos2 =>
      .ok (base ++ pl ++ le32 s.signaturesLen ++ s.indexedSignatures.take pos2)

/-- `crypto_hashSigSection`: SHA-256 (the host primitive `sha`) over the
stream above. -/
def crypto_hashSigSection (sha : Bytes → Bytes) (pfx : Option Nat)
    (s : SignatureSection) : Except Zxerr Bytes :=
  match crypto_hashSigSection_stream pfx s with
  | .error e => .error e
  | .ok st => .ok (padTake HASH_LEN (sha st))

/-! ### `crypto_sign` (2024 version, `crypto.c:622`) -/

/-- Transaction types distinguished by `crypto_addTxnHashes`. -/
inductive TxType
  | InitAccount
  | UpdateVP
  | InitProposal
  | Other
deriving DecidableEq

/-- Proposal variants relevant to `crypto_addTxnHashes`. -/
inductive ProposalType
  | Default
  | DefaultWithWasm
deriving DecidableEq

/-- The fields of `parser_tx_t` consumed by `crypto_sign`. -/
structure TxObj where
  typeTx : TxType
  initAccountHash : Bytes
  initAccountIdx : Nat
  updateVpHash : Bytes
  updateVpIdx : Nat
  propContentHash : Bytes
  propContentIdx : Nat
  propType : ProposalType
  propCodeHash : Bytes
  propCodeIdx : Nat
  /-- `transaction.header.bytes`. -/
  headerBytes : Bytes
  /-- `transaction.header.extBytes`. -/
  headerExtBytes : Bytes
  codeIdx : Nat
  dataIdx : Nat
  /-- `transaction.header.memoSection`: `some idx` when a memo section is
  present. -/
  memoIdx : Option Nat
  /-- `transaction.sections.sectionLen`. -/
  sectionLen : Nat
  /-- `transaction.sections.signatures[0 .. signaturesLen)`: the prior
  signature sections already present in the transaction. -/
  signatures : List SignatureSection
deriving DecidableEq

/-- External collaborators of `crypto_sign`: device-key extraction,
ed25519 signing, SHA-256, and the `crypto_helper.c` section hashers. -/
structure SignEnv where
  /-- `crypto_extractPublicKey_ed25519` host derivation: the 32 public-key
  bytes, or a cx error. -/
  extract : Except Unit Bytes
  /-- `crypto_sign_ed25519` over a message: the 64 signature bytes, or a
  cx error. -/
  sign : Bytes → Except Unit Bytes
  /-- SHA-256. -/
  sha : Bytes → Bytes
  /-- `crypto_hashCodeSection` on the transaction's code section. -/
  hashCode : Except Unit Bytes
  /-- `crypto_hashDataSection` on the transaction's data section. -/
  hashData : Except Unit Bytes
  /-- `crypto_hashExtraDataSection` on the memo section. -/
  hashMemo : Except Unit Bytes

/-- `crypto_hashRawHeader`: SHA-256 of discriminant `0x06`, the header
bytes, and the trailing `0x00` sub-discriminant. -/
def rawHeaderHash (env : SignEnv) (tx : TxObj) : Bytes :=
  padTake HASH_LEN (env.sha (DISCRIMINANT_HEADER :: tx.headerBytes ++ [0]))

/-- `crypto_hashFeeHeader`: SHA-256 of discriminant `0x06` and the
header's extension bytes (no sub-discriminant). -/
def feeHeaderHash (env : SignEnv) (tx : TxObj) : Bytes :=
  padTake HASH_LEN (env.sha (DISCRIMINANT_HEADER :: tx.headerExtBytes))

/-- `crypto_addTxnHashes` (2024 version, `crypto.c:583`): appends the
transaction-type-specific extra hashes and their origin indices.  The C
code bumps `hashesLen` with no capacity check against the 10-slot buffer. -/
def crypto_addTxnHashes (tx : TxObj) (hs : List Bytes) (ids : List Nat) :
    List Bytes × List Nat :=
  match tx.typeTx with
  | .InitAccount =>
      (hs ++ [padTake HASH_LEN tx.initAccountHash], ids ++ [tx.initAccountIdx])
  | .UpdateVP =>
      (hs ++ [padTake HASH_LEN tx.updateVpHash], ids ++ [tx.updateVpIdx])
  | .InitProposal =>
      let hs1 := hs ++ [padTake HASH_LEN tx.propContentHash]
      let ids1 := ids ++ [tx.propContentIdx]
      if tx.propType = ProposalType.DefaultWithWasm then
        (hs1 ++ [padTake HASH_LEN tx.propCodeHash], ids1 ++ [tx.propCodeIdx])
      else (hs1, ids1)
  | .Other => (hs, ids)

/-- The unsigned raw signature section built in `crypto_sign`: signer =
`PubKeys` with the device public key bytes (count 0 at hashing time of the
unsigned variant), salt pointing into the output buffer, no signatures. -/
def rawSigSection (acc : List Bytes) (buf : Bytes) : SignatureSection :=
  { salt := slice buf PK_LEN_25519_PLUS_TAG SALT_LEN
    hashes := acc
    signerDiscriminant := PubKeysDisc
    pubKeysLen := 0
    pubKeys := slice buf 0 PK_LEN_25519_PLUS_TAG
    addressBytes := []
    signaturesLen := 0
    indexedSignatures := []
    idx := 0 }

/-- The signed variant: `signaturesLen = 1` with `indexedSignatures`
pointing at `raw - 1`, i.e. the 66 output-buffer bytes starting at the
last salt byte (offset 64), and `pubKeysLen = 1`. -/
def signedRawSigSection (acc : List Bytes) (buf : Bytes) : SignatureSection :=
  { rawSigSection acc buf with
      signaturesLen := 1
      indexedSignatures := slice buf 64 (1 + SIG_LEN_25519_PLUS_TAG)
      pubKeysLen := 1 }

/-- The unsigned wrapper signature section: zero keys, zero signatures,
hashes = the finalized accumulator. -/
def wrapperSigSection (acc : List Bytes) (buf : Bytes) : SignatureSection :=
  { signedRawSigSection acc buf with
      signaturesLen := 0
      pubKeysLen := 0
      hashes := acc }

/-- The prior-signature-section loop of `crypto_sign` (`crypto.c:722`).
The C code's recognition test is
`memcmp(prev_sig->hashes.hashes.ptr, signature_section.hashes.hashes.ptr, HASH_LEN)`,
which compares the FIRST listed hash of the prior section against the
FIRST hash of the accumulator, for every `j` and `k`; so a section is
included iff its hash list is empty or its first hash equals the
accumulator's first hash.  Included sections contribute their prefixed
(0x03) digest and their section index. -/
def priorSigLoop (env : SignEnv) (sigs : List SignatureSection)
    (acc : List Bytes) (ids : List Nat) :
    Except Zxerr (List Bytes × List Nat) :=
  match sigs with
  | [] => .ok (acc, ids)
  | ps :: rest =>
    if ps.hashes = [] ∨
        (acc ≠ [] ∧ padTake HASH_LEN (ps.hashes.headD []) = acc.headD []) then
      match crypto_hashSigSection_stream (some 3) ps with
      | .error e => .error e
      | .ok st =>
        priorSigLoop env rest (acc ++ [padTake HASH_LEN (env.sha st)])
          (ids ++ [ps.idx])
    else priorSigLoop env rest acc ids

/-- `PK_LEN_25519_PLUS_TAG + 2 * SALT_LEN + 2 * SIG_LEN_25519_PLUS_TAG + 2 + 10`. -/
def minimumBufferSize : Nat :=
  PK_LEN_25519_PLUS_TAG + 2 * SALT_LEN + 2 * SIG_LEN_25519_PLUS_TAG + 2 + 10

/-- The observable result of a `crypto_sign` call: the error code, the
output buffer at return, and (for inspection) the final hash accumulator,
its origin indices, the snapshotted raw indices, the salt bytes and the
indexed-signature bytes committed into the prefixed raw-section digest. -/
structure SignOutcome where
  err : Zxerr
  buf : Bytes
  acc : List Bytes
  accIdx : List Nat
  rawIndices : List Nat
  saltBytes : Bytes
  committedIndexedSigs : Bytes
deriving DecidableEq

/-- An error return from `crypto_sign` with the output buffer in the state
it is left in. -/
def signFail (e : Zxerr) (buf : Bytes) : SignOutcome :=
  ⟨e, buf, [], [], [], [], []⟩

/-- The tail of `crypto_sign` once the raw ed25519 signature is in the
output buffer at offsets 66..129 (`buf2`) and the accumulator holds the
pre-signature hashes (`acc1`/`ids1`): computes the prefixed raw-section
digest, appends code/data/memo hashes, filters prior signature sections,
overwrites slot 0 with the fee-header hash, signs the wrapper section,
and serializes the two origin-index lists at offset 227. -/
def signAfterRaw (env : SignEnv) (tx : TxObj) (buf2 : Bytes)
    (acc1 : List Bytes) (ids1 : List Nat) : SignOutcome :=
  match crypto_hashSigSection_stream (some 3) (signedRawSigSection acc1 buf2) with
  | .error e => signFail e buf2
  | .ok st1 =>
    let acc2 := acc1 ++ [padTake HASH_LEN (env.sha st1)]
    let ids2 := ids1 ++ [tx.sectionLen + 1]
    match env.hashCode with
    | .error _ => signFail .unknown buf2
    | .ok ch =>
    match env.hashData with
    | .error _ => signFail .unknown buf2
    | .ok dh =>
    let acc3 := acc2 ++ [padTake HASH_LEN ch, padTake HASH_LEN dh]
    let ids3 := ids2 ++ [tx.codeIdx, tx.dataIdx]
    let memoStep : Except Zxerr (List Bytes × List Nat) :=
      match tx.memoIdx with
      | none => .ok (acc3, ids3)
      | some m =>
        match env.hashMemo with
        | .error _ => .error .unknown
        | .ok mh => .ok (acc3 ++ [padTake HASH_LEN mh], ids3 ++ [m])
    match memoStep with
    | .error e => signFail e buf2
    | .ok (acc4, ids4) =>
    match priorSigLoop env tx.signatures acc4 ids4 with
    | .error e => signFail e buf2
    | .ok (acc5, ids5) =>
      let acc6 := feeHeaderHash env tx :: acc5.tail
      let ids6 := 0 :: ids5.tail
      match crypto_hashSigSection_stream none (wrapperSigSection acc6 buf2) with
      | .error e => signFail e buf2
      | .ok st2 =>
        match env.sign (padTake HASH_LEN (env.sha st2)) with
        | .error _ => signFail .unknown (writeAt buf2 163 (zeros 64))
        | .ok s1 =>
          let buf3 := writeAt buf2 163 (padTake ED25519_SIGNATURE_SIZE s1)
          let buf4 := writeAt buf3 227
            (ids1.length % 256 :: ids1.map (fun x => x % 256))
          let buf5 := writeAt buf4 (228 + ids1.length)
            (acc6.length % 256 :: ids6.map (fun x => x % 256))
          { err := .ok
            buf := buf5
            acc := acc6
            accIdx := ids6
            rawIndices := ids1
            saltBytes := slice buf2 PK_LEN_25519_PLUS_TAG SALT_LEN
            committedIndexedSigs := slice buf2 64 (1 + SIG_LEN_25519_PLUS_TAG) }

/-- `crypto_sign` (2024 version, `crypto.c:622`).  The output buffer is
zeroed on entry; the tag bytes at offsets 0, 65 and 162 are never written
and stay 0; the salt region (33..64) is never written by this routine. -/
def crypto_sign (env : SignEnv) (tx : TxObj) (outputLen : Nat)
    (output : Bytes) : SignOutcome :=
  if outputLen < minimumBufferSize then signFail .unknown output else
  match env.extract with
  | .error _ => signFail .unknown (zeros outputLen)
  | .ok pk0 =>
    let buf1 := writeAt (zeros outputLen) 1 (padTake PK_LEN_25519 pk0)
    let (acc1, ids1) := crypto_addTxnHashes tx [rawHeaderHash env tx] [255]
    match crypto_hashSigSection_stream none (rawSigSection acc1 buf1) with
    | .error e => signFail e buf1
    | .ok st0 =>
      match env.sign (padTake HASH_LEN (env.sha st0)) with
      | .error _ => signFail .unknown (writeAt buf1 66 (zeros 64))
      | .ok s0 =>
        signAfterRaw env tx (writeAt buf1 66 (padTake ED25519_SIGNATURE_SIZE s0))
          acc1 ids1

/-! ### MASP: keys, commitment checks, shielded signing -/

/-- Fixed on-wire / builder record sizes from `parser_impl_masp.h` (the
header is not under `src/`; sizes modelled from the spec's "fixed record
size" descriptions — only their role as scale factors matters here). -/
def EXTENDED_FVK_LEN : Nat := 169
def DIVERSIFIER_LEN : Nat := 11
def PAYMENT_ADDR_LEN : Nat := 43
def IDENTIFIER_LEN : Nat := 32
def CV_LEN : Nat := 32
def NULLIFIER_LEN : Nat := 32
def RK_LEN : Nat := 32
def TAG_LEN : Nat := 1
def ASSET_ID_LEN : Nat := 32
def INT_128_LEN : Nat := 16
def SHIELDED_SPENDS_LEN : Nat := 96
def SHIELDED_OUTPUTS_LEN : Nat := 788
def SHIELDED_CONVERTS_LEN : Nat := 64

/-- `convertKey` modifiers (`MODIFIER_ASK` etc.). -/
def MODIFIER_ASK : Nat := 0
def MODIFIER_NSK : Nat := 1
def MODIFIER_OVK : Nat := 2
def MODIFIER_DK : Nat := 3

/-- `keys_t` (`keys_def.h`): the sapling key-derivation chain. -/
structure Keys where
  spendingKey : Bytes
  ask : Bytes
  nsk : Bytes
  ovk : Bytes
  dk : Bytes
  ak : Bytes
  nk : Bytes
  ivk : Bytes
  diversifierStartIndex : Bytes
  diversifier : Bytes
  address : Bytes
deriving DecidableEq

/-- The all-zero `keys_t` (`keys_t keys = {0}` / after `MEMZERO`). -/
def Keys.zero : Keys :=
  ⟨zeros 32, zeros 32, zeros 32, zeros 32, zeros 32, zeros 32, zeros 32,
   zeros 32, zeros 11, zeros 11, zeros 32⟩

/-- Events observed while running the MASP verification and signing
pipeline: check starts, check successes, per-item commitment and
verification-key recomputations, and shielded-spend signings.  The
`cvOutput` event records the iteration counter, the index read from the
indices stream, the builder-description start offset used, and the bundle
byte offset compared. -/
inductive MEvent
  | startSpends
  | spendsOk
  | startOutputs
  | outputsOk
  | startConverts
  | convertsOk
  | cvSpend (i : Nat)
  | rkSpend (i : Nat)
  | cvOutput (iter idx dstart boff : Nat)
  | cvConvert (i : Nat)
  | signSpend (i : Nat)
deriving DecidableEq

/-- The MASP builder/bundle fields of `parser_tx_t` consumed by the
checks, plus the serialized transaction buffer hashed on success. -/
structure MaspTx where
  /-- `maspBuilder.builder.sapling_builder.n_spends`. -/
  n_spends : Nat
  /-- `maspTx.data.sapling_bundle.n_shielded_spends`. -/
  n_shielded_spends : Nat
  /-- `maspBuilder.builder.sapling_builder.n_outputs`. -/
  n_outputs : Nat
  /-- `maspBuilder.metadata.n_outputs_indices`. -/
  n_outputs_indices : Nat
  /-- `maspBuilder.builder.sapling_builder.n_converts`. -/
  n_converts : Nat
  /-- `maspTx.data.sapling_bundle.n_shielded_converts`. -/
  n_shielded_converts : Nat
  builderSpends : Bytes
  builderOutputs : Bytes
  builderConverts : Bytes
  shieldedSpends : Bytes
  shieldedOutputs : Bytes
  shieldedConverts : Bytes
  /-- `maspBuilder.metadata.outputs_indices`. -/
  outputsIndices : Bytes
  /-- The full serialized transaction buffer (`tx_get_buffer()`). -/
  txBuffer : Bytes
deriving DecidableEq

/-- External collaborators of the MASP pipeline: key-derivation
primitives, the device-resident randomness store, commitment arithmetic,
the builder-description locators of `parser_impl_masp.c` (not under
`src/`), and the RedDSA spend signer. -/
structure MaspEnv where
  /-- `os_derive_bip32_with_seed_no_throw` output inside
  `crypto_computeSaplingSeed`. -/
  deriveSeedBytes : Except Unit Bytes
  /-- `computeMasterFromSeed(seed, out)`: `(failed, bytes left in the
  destination buffer)` — the callee writes into the caller's
  `spendingKey` buffer and reports success or failure. -/
  masterFromSeed : Bytes → Bool × Bytes
  /-- `convertKey(spendingKey, modifier, out, true)`. -/
  convertKey : Bytes → Nat → Except Unit Bytes
  /-- `generate_key(sk, generator, out)` (generator 0 = spending key
  generator, 1 = proof generation key generator). -/
  generateKey : Bytes → Nat → Except Unit Bytes
  /-- `computeIVK(ak, nk, out)`. -/
  computeIVKBytes : Bytes → Bytes → Except Unit Bytes
  /-- `computeDiversifier(dk, startIndex, out)`. -/
  computeDiversifierBytes : Bytes → Bytes → Except Unit Bytes
  /-- `computePkd(ivk, diversifier, out)`. -/
  computePkdBytes : Bytes → Bytes → Except Unit Bytes
  /-- `signature_hash(txObj, out)` (`signhash.c`, not under `src/`). -/
  signatureHash : Bytes
  /-- `sign_sapling_spend(keys, alpha, sign_hash, out)`: the RedDSA
  signing chain over the randomized spending key, abstracted as an
  oracle from `(ask, alpha, sign_hash)` to the 64 signature bytes. -/
  spendSigOracle : Bytes → Bytes → Bytes → Except Unit Bytes
  /-- `spendlist_retrieve_rand_item(i)`: `(rcv, alpha)`. -/
  spendItem : Nat → Bytes × Bytes
  /-- `outputlist_retrieve_rand_item(i)`: `rcv`. -/
  outputItem : Nat → Bytes
  /-- `convertlist_retrieve_rand_item(i)`: `rcv`. -/
  convertItem : Nat → Bytes
  /-- `computeValueCommitment(value, rcv, identifier, out)`. -/
  cvOf : Nat → Bytes → Bytes → Bytes
  /-- `computeRk(keys, alpha, out)`. -/
  rkOf : Keys → Bytes → Except Unit Bytes
  /-- Modelled from the spec: `getNextSpendDescription(ctx, i)` of
  `parser_impl_masp.c` (not under `src/`) positions the builder context
  at the start of the `i`-th spend description. -/
  spendDescStart : Nat → Nat
  /-- Modelled from the spec: `getNextOutputDescription(ctx, i)` positions
  the builder context at the start of the `i`-th output description. -/
  outputDescStart : Nat → Nat
  /-- Modelled from the spec: `getNextConvertDescription(ctx, i)` positions
  the builder context at the start of the `i`-th convert description. -/
  convertDescStart : Nat → Nat
  /-- SHA-256 (`cx_hash_sha256`). -/
  sha : Bytes → Bytes

/-- `computeKeys` (`crypto.c:790`): the strict derivation chain
ask/nsk/ovk/dk from the spending key, ak/nk from ask/nsk, ivk from ak+nk,
diversifier from dk, address from ivk+diversifier.  Returns
`(failed, keys)`; a mid-chain failure leaves the fields computed so far. -/
def computeKeys (env : MaspEnv) (k0 : Keys) : Bool × Keys :=
  match env.convertKey k0.spendingKey MODIFIER_ASK with
  | .error _ => (true, k0)
  | .ok a =>
  let k1 := { k0 with ask := padTake 32 a }
  match env.convertKey k1.spendingKey MODIFIER_NSK with
  | .error _ => (true, k1)
  | .ok b =>
  let k2 := { k1 with nsk := padTake 32 b }
  match env.convertKey k2.spendingKey MODIFIER_OVK with
  | .error _ => (true, k2)
  | .ok c =>
  let k3 := { k2 with ovk := padTake 32 c }
  match env.convertKey k3.spendingKey MODIFIER_DK with
  | .error _ => (true, k3)
  | .ok d =>
  let k4 := { k3 with dk := padTake 32 d }
  match env.generateKey k4.ask 0 with
  | .error _ => (true, k4)
  | .ok e =>
  let k5 := { k4 with ak := padTake 32 e }
  match env.generateKey k5.nsk 1 with
  | .error _ => (true, k5)
  | .ok f =>
  let k6 := { k5 with nk := padTake 32 f }
  match env.computeIVKBytes k6.ak k6.nk with
  | .error _ => (true, k6)
  | .ok g =>
  let k7 := { k6 with ivk := padTake 32 g }
  match env.computeDiversifierBytes k7.dk k7.diversifierStartIndex with
  | .error _ => (true, k7)
  | .ok h =>
  let k8 := { k7 with diversifier := padTake 11 h }
  match env.computePkdBytes k8.ivk k8.diversifier with
  | .error _ => (true, k8)
  | .ok p => (false, { k8 with address := padTake 32 p })

/-- `crypto_computeSaplingSeed` (`crypto.c:854`): derives the seed from
the BIP32 path; the destination is zeroed on failure. -/
def crypto_computeSaplingSeed (env : MaspEnv) : Zxerr × Bytes :=
  match env.deriveSeedBytes with
  | .error _ => (.unknown, zeros 32)
  | .ok pd => (.ok, padTake 32 pd)

/-- The per-spend loop of `checkSpends` (`crypto.c:1055`): for spend `i`,
locate the builder spend description, skip the extended fvk and
diversifier, read the 32-byte identifier and the `u64` value, recompute
the value commitment with the device-held `rcv` for item `i`, compare it
against the bundle bytes at offset `SHIELDED_SPENDS_LEN * i`, then
recompute `rk` from the device-held `alpha` and compare it at offset
`SHIELDED_SPENDS_LEN * i + CV_LEN + NULLIFIER_LEN`. -/
def checkSpendsLoop (env : MaspEnv) (tx : MaspTx) (k : Keys) :
    Nat → Nat → Except PErr Unit × List MEvent
  | _, 0 => (.ok (), [])
  | i, n + 1 =>
    let bl := tx.builderSpends
    let start := env.spendDescStart i
    if ¬ start ≤ bl.length then (.error .bufEnd, []) else
    if ¬ SHIELDED_SPENDS_LEN * i ≤ tx.shieldedSpends.length then
      (.error .bufEnd, []) else
    let item := env.spendItem i
    let boff := start + EXTENDED_FVK_LEN + DIVERSIFIER_LEN
    if ¬ boff + IDENTIFIER_LEN + 8 ≤ bl.length then (.error .bufEnd, []) else
    let identifier := slice bl boff IDENTIFIER_LEN
    let value := decodeLE (slice bl (boff + IDENTIFIER_LEN) 8)
    let cv := padTake CV_LEN (env.cvOf value item.1 identifier)
    if cv ≠ slice tx.shieldedSpends (SHIELDED_SPENDS_LEN * i) CV_LEN then
      (.error .invalidCv, [.cvSpend i]) else
    match env.rkOf k item.2 with
    | .error _ => (.error .unexpectedError, [.cvSpend i])
    | .ok rk0 =>
      let rk := padTake RK_LEN rk0
      if ¬ SHIELDED_SPENDS_LEN * i + CV_LEN + NULLIFIER_LEN + RK_LEN ≤
          tx.shieldedSpends.length then
        (.error .bufEnd, [.cvSpend i, .rkSpend i]) else
      if rk ≠ slice tx.shieldedSpends
          (SHIELDED_SPENDS_LEN * i + CV_LEN + NULLIFIER_LEN) RK_LEN then
        (.error .invalidRk, [.cvSpend i, .rkSpend i]) else
      let (r, evs) := checkSpendsLoop env tx k (i + 1) n
      (r, .cvSpend i :: .rkSpend i :: evs)

/-- `checkSpends` (`crypto.c:1046`): the builder spend count must equal
the bundle's declared shielded-spend count, else
`parser_invalid_number_of_spends`, before any per-spend work. -/
def checkSpends (env : MaspEnv) (tx : MaspTx) (k : Keys) :
    Except PErr Unit × List MEvent :=
  if tx.n_spends ≠ tx.n_shielded_spends then
    (.error .invalidNumberOfSpends, [])
  else checkSpendsLoop env tx k 0 tx.n_spends

/-- The byte offset, within the builder-outputs buffer, of the identifier
field of the output description located for iteration `i` (after the
1-byte `has_ovk` flag, the optional 32-byte ovk, the diversifier and the
payment address). -/
def outputBoffAt (env : MaspEnv) (tx : MaspTx) (i : Nat) : Nat :=
  env.outputDescStart i + 1 +
    (if tx.builderOutputs.getD (env.outputDescStart i) 0 ≠ 0 then 32 else 0) +
    DIVERSIFIER_LEN + PAYMENT_ADDR_LEN

/-- The value commitment recomputed at iteration `i` of `checkOutputs`
when the stream index is `indice`: identifier and value parsed from the
builder description located at `env.outputDescStart i` (the LOOP
counter), blinding factor `env.outputItem indice` (the STREAM index). -/
def outputCvAt (env : MaspEnv) (tx : MaspTx) (i indice : Nat) : Bytes :=
  padTake CV_LEN (env.cvOf
    (decodeLE (slice tx.builderOutputs (outputBoffAt env tx i + IDENTIFIER_LEN) 8))
    (env.outputItem indice)
    (slice tx.builderOutputs (outputBoffAt env tx i) IDENTIFIER_LEN))

/-- The per-output loop of `checkOutputs` (`crypto.c:1099`): iteration `i`
locates the builder output description with the LOOP COUNTER `i`
(`getNextOutputDescription(builder_outputs_ctx, i)`), reads the index
`indice` from the separate indices stream at offset `8 * i`, and uses
`indice` for the device-held `rcv` and for the bundle slot
`SHIELDED_OUTPUTS_LEN * indice`. -/
def checkOutputsLoop (env : MaspEnv) (tx : MaspTx) :
    Nat → Nat → Nat → Except PErr Unit × List MEvent
  | _, 0, _ => (.ok (), [])
  | i, n + 1, indOff =>
    if ¬ env.outputDescStart i + 1 ≤ tx.builderOutputs.length then
      (.error .bufEnd, []) else
    if ¬ indOff + 8 ≤ tx.outputsIndices.length then (.error .bufEnd, []) else
    let indice := decodeLE (slice tx.outputsIndices indOff 8)
    if ¬ SHIELDED_OUTPUTS_LEN * indice ≤ tx.shieldedOutputs.length then
      (.error .bufEnd, []) else
    if ¬ outputBoffAt env tx i + IDENTIFIER_LEN + 8 ≤ tx.builderOutputs.length then
      (.error .bufEnd, []) else
    let ev := MEvent.cvOutput i indice (env.outputDescStart i)
      (SHIELDED_OUTPUTS_LEN * indice)
    if outputCvAt env tx i indice ≠
        slice tx.shieldedOutputs (SHIELDED_OUTPUTS_LEN * indice) CV_LEN then
      (.error .invalidCv, [ev]) else
    let (r, evs) := checkOutputsLoop env tx (i + 1) n (indOff + 8)
    (r, ev :: evs)

/-- `checkOutputs` (`crypto.c:1090`): the builder output count must equal
the metadata's declared output-index count, else
`parser_invalid_number_of_outputs`. -/
def checkOutputs (env : MaspEnv) (tx : MaspTx) :
    Except PErr Unit × List MEvent :=
  if tx.n_outputs ≠ tx.n_outputs_indices then
    (.error .invalidNumberOfOutputs, [])
  else checkOutputsLoop env tx 0 tx.n_outputs_indices 0

/-- The per-output loop as the claim words it: the index read from the
indices stream locates BOTH the builder's output description and the
bundle slot.  Declared only to be compared against `checkOutputsLoop`,
which is what the code does. -/
def checkOutputsClaimLoop (env : MaspEnv) (tx : MaspTx) :
    Nat → Nat → Nat → Except PErr Unit × List MEvent
  | _, 0, _ => (.ok (), [])
  | i, n + 1, indOff =>
    let bl := tx.builderOutputs
    if ¬ indOff + 8 ≤ tx.outputsIndices.length then (.error .bufEnd, []) else
    let indice := decodeLE (slice tx.outputsIndices indOff 8)
    let start := env.outputDescStart indice
    if ¬ start + 1 ≤ bl.length then (.error .bufEnd, []) else
    if ¬ SHIELDED_OUTPUTS_LEN * indice ≤ tx.shieldedOutputs.length then
      (.error .bufEnd, []) else
    let has_ovk := bl.getD start 0
    let boff := start + 1 + (if has_ovk ≠ 0 then 32 else 0) +
      DIVERSIFIER_LEN + PAYMENT_ADDR_LEN
    if ¬ boff + IDENTIFIER_LEN + 8 ≤ bl.length then (.error .bufEnd, []) else
    let identifier := slice bl boff IDENTIFIER_LEN
    let value := decodeLE (slice bl (boff + IDENTIFIER_LEN) 8)
    let cv := padTake CV_LEN (env.cvOf value (env.outputItem indice) identifier)
    let ev := MEvent.cvOutput i indice start (SHIELDED_OUTPUTS_LEN * indice)
    if cv ≠ slice tx.shieldedOutputs (SHIELDED_OUTPUTS_LEN * indice) CV_LEN then
      (.error .invalidCv, [ev]) else
    let (r, evs) := checkOutputsClaimLoop env tx (i + 1) n (indOff + 8)
    (r, ev :: evs)

/-- `checkOutputs` as the claim words it (see `checkOutputsClaimLoop`). -/
def checkOutputsClaim (env : MaspEnv) (tx : MaspTx) :
    Except PErr Unit × List MEvent :=
  if tx.n_outputs ≠ tx.n_outputs_indices then
    (.error .invalidNumberOfOutputs, [])
  else checkOutputsClaimLoop env tx 0 tx.n_outputs_indices 0

/-- The per-convert loop of `checkConverts` (`crypto.c:1137`):
sequentially indexed; the LOOP resets only the builder context at the end
of each iteration (`crypto.c:1157`), so the bundle context's offset
`txOff` accumulates across iterations, each advancing it by
`SHIELDED_CONVERTS_LEN * i` before the comparison. -/
def checkConvertsLoop (env : MaspEnv) (tx : MaspTx) :
    Nat → Nat → Nat → Except PErr Unit × List MEvent
  | _, 0, _ => (.ok (), [])
  | i, n + 1, txOff =>
    let bl := tx.builderConverts
    let start := env.convertDescStart i
    if ¬ start ≤ bl.length then (.error .bufEnd, []) else
    if ¬ txOff + SHIELDED_CONVERTS_LEN * i ≤ tx.shieldedConverts.length then
      (.error .bufEnd, []) else
    let item := env.convertItem i
    let boff := start + TAG_LEN
    if ¬ boff + IDENTIFIER_LEN ≤ bl.length then (.error .bufEnd, []) else
    let identifier := slice bl boff IDENTIFIER_LEN
    let voff := boff + IDENTIFIER_LEN + ASSET_ID_LEN + INT_128_LEN + 8
    if ¬ voff + 8 ≤ bl.length then (.error .bufEnd, []) else
    let value := decodeLE (slice bl voff 8)
    let cv := padTake CV_LEN (env.cvOf value item identifier)
    if cv ≠ slice tx.shieldedConverts (txOff + SHIELDED_CONVERTS_LEN * i) CV_LEN then
      (.error .invalidCv, [.cvConvert i]) else
    let (r, evs) := checkConvertsLoop env tx (i + 1) n (txOff + SHIELDED_CONVERTS_LEN * i)
    (r, .cvConvert i :: evs)

/-- `checkConverts` (`crypto.c:1129`): the builder convert count must
equal the bundle's declared shielded-convert count, else
`parser_invalid_number_of_outputs` (sic, as in the code). -/
def checkConverts (env : MaspEnv) (tx : MaspTx) :
    Except PErr Unit × List MEvent :=
  if tx.n_converts ≠ tx.n_shielded_converts then
    (.error .invalidNumberOfOutputs, [])
  else checkConvertsLoop env tx 0 tx.n_converts 0

/-- `crypto_check_masp` (`crypto.c:1162`): runs `checkSpends`, then
`checkOutputs`, then `checkConverts`, each behind `CHECK_PARSER_OK`
(first failure returns `zxerr_unknown`).  The trace records each check's
start, its per-item events, and a success marker. -/
def crypto_check_masp (env : MaspEnv) (tx : MaspTx) (k : Keys) :
    Zxerr × List MEvent :=
  let (r1, t1) := checkSpends env tx k
  match r1 with
  | .error _ => (.unknown, .startSpends :: t1)
  | .ok _ =>
    let (r2, t2) := checkOutputs env tx
    match r2 with
    | .error _ =>
      (.unknown, .startSpends :: t1 ++ [.spendsOk, .startOutputs] ++ t2)
    | .ok _ =>
      let (r3, t3) := checkConverts env tx
      match r3 with
      | .error _ =>
        (.unknown, .startSpends :: t1 ++ [.spendsOk, .startOutputs] ++ t2 ++
          [.outputsOk, .startConverts] ++ t3)
      | .ok _ =>
        (.ok, .startSpends :: t1 ++ [.spendsOk, .startOutputs] ++ t2 ++
          [.outputsOk, .startConverts] ++ t3 ++ [.convertsOk])

/-- The per-spend loop of `crypto_sign_spends_sapling` (`crypto.c:1018`):
signs each spend with the device-held alpha and appends the signature to
the flash store (appends survive a later failure). -/
def signSpendsLoop (env : MaspEnv) (ask : Bytes) (signHash : Bytes) :
    Nat → Nat → Zxerr × List Bytes × List MEvent
  | _, 0 => (.ok, [], [])
  | i, n + 1 =>
    let item := env.spendItem i
    match env.spendSigOracle ask item.2 signHash with
    | .error _ => (.unknown, [], [])
    | .ok sig =>
      let (r, st, tr) := signSpendsLoop env ask signHash (i + 1) n
      (r, padTake 64 sig :: st, .signSpend i :: tr)

/-- `crypto_sign_spends_sapling` (`crypto.c:1004`): nothing to do when the
bundle declares no shielded spends; otherwise signs the builder's spends
in ascending order over the transaction sighash. -/
def crypto_sign_spends_sapling (env : MaspEnv) (tx : MaspTx) (k : Keys) :
    Zxerr × List Bytes × List MEvent :=
  if tx.n_shielded_spends = 0 then (.ok, [], [])
  else signSpendsLoop env k.ask (padTake HASH_LEN env.signatureHash) 0 tx.n_spends

/-- The observable result of a `crypto_sign_masp` call: error code, output
buffer, and the state of the secret-key buffers (`sapling_seed`, `keys`)
at return, plus the spend-signature store and the event trace. -/
structure MaspOutcome where
  err : Zxerr
  out : Bytes
  seed : Bytes
  keys : Keys
  store : List Bytes
  trace : List MEvent
deriving DecidableEq

/-- `crypto_sign_masp` (`crypto.c:1216`).  Note the early error return
when `computeMasterFromSeed` fails zeroes `sapling_seed` but NOT `keys`;
all other exit paths zero both. -/
def crypto_sign_masp (env : MaspEnv) (tx : MaspTx) (outputLen : Nat)
    (output : Bytes) : MaspOutcome :=
  if outputLen < ED25519_SIGNATURE_SIZE then
    ⟨.unknown, output, zeros 32, Keys.zero, [], []⟩ else
  let (e1, seed) := crypto_computeSaplingSeed env
  if e1 ≠ .ok then ⟨e1, output, seed, Keys.zero, [], []⟩ else
  let (mfail, written) := env.masterFromSeed seed
  if mfail then
    ⟨.unknown, output, zeros 32,
      { Keys.zero with spendingKey := padTake 32 written }, [], []⟩ else
  let (cfail, k2) := computeKeys env
    { Keys.zero with spendingKey := padTake 32 written }
  if cfail then ⟨.invalid_crypto_settings, output, zeros 32, Keys.zero, [], []⟩ else
  let (chkRes, chkTrace) := crypto_check_masp env tx k2
  if chkRes ≠ Zxerr.ok then
    ⟨.invalid_crypto_settings, output, zeros 32, Keys.zero, [], chkTrace⟩ else
  let (sRes, store, sTrace) := crypto_sign_spends_sapling env tx k2
  if sRes ≠ Zxerr.ok then
    ⟨.invalid_crypto_settings, output, zeros 32, Keys.zero, store,
      chkTrace ++ sTrace⟩ else
  ⟨.ok, writeAt output 0 (padTake 32 (env.sha tx.txBuffer)), zeros 32,
    Keys.zero, store, chkTrace ++ sTrace⟩

/-- Key kinds requested from `crypto_generateSaplingKeys`. -/
inductive KeyKind
  | PublicAddress
  | ViewKeys
  | ProofGenerationKey
deriving DecidableEq

/-- `copyKeys` (`crypto.c:817`). -/
def copyKeys (k : Keys) (req : KeyKind) (outputLen : Nat) (out : Bytes) :
    Zxerr × Bytes :=
  match req with
  | .PublicAddress =>
    if outputLen < KEY_LENGTH then (.buffer_too_small, out)
    else (.ok, writeAt out 0 (padTake 32 k.address))
  | .ViewKeys =>
    if outputLen < 4 * KEY_LENGTH then (.buffer_too_small, out)
    else (.ok, writeAt (writeAt (writeAt (writeAt out 0 (padTake 32 k.ak)) 32
      (padTake 32 k.nk)) 64 (padTake 32 k.ovk)) 96 (padTake 32 k.ivk))
  | .ProofGenerationKey =>
    if outputLen < 2 * KEY_LENGTH then (.buffer_too_small, out)
    else (.ok, writeAt (writeAt out 0 (padTake 32 k.ak)) 32 (padTake 32 k.nsk))

/-- The observable result of a `crypto_generateSaplingKeys` call,
including the state of the stack buffers `sk` and `saplingKeys` at
return. -/
structure GenOutcome where
  err : Zxerr
  out : Bytes
  sk : Bytes
  keys : Keys
deriving DecidableEq

/-- `crypto_generateSaplingKeys` (`crypto.c:879`).  Note the early error
return when `computeMasterFromSeed` fails zeroes `sk` but NOT
`saplingKeys`; the tail of the function zeroes both. -/
def crypto_generateSaplingKeys (env : MaspEnv) (outputLen : Nat)
    (output : Bytes) (req : KeyKind) : GenOutcome :=
  if outputLen < 3 * KEY_LENGTH then
    ⟨.buffer_too_small, output, zeros 32, Keys.zero⟩ else
  let out1 := zeros outputLen
  let (e1, sk) := crypto_computeSaplingSeed env
  if e1 ≠ .ok then ⟨e1, out1, sk, Keys.zero⟩ else
  let (mfail, written) := env.masterFromSeed sk
  if mfail then
    ⟨.unknown, out1, zeros 32,
      { Keys.zero with spendingKey := padTake 32 written }⟩ else
  let (cfail, k2) := computeKeys env
    { Keys.zero with spendingKey := padTake 32 written }
  if cfail then ⟨.unknown, out1, zeros 32, Keys.zero⟩ else
  let (e3, out2) := copyKeys k2 req outputLen out1
  ⟨e3, out2, zeros 32, Keys.zero⟩

/-! ### Concrete fixtures

A sample environment and transactions, used to evaluate the model at
concrete inputs.  `sha` is a stand-in digest function (first byte = input
length mod 256) — the claims under test are about the byte streams and
control flow, not about SHA-256 itself. -/

/-- Sample `crypto_sign` environment: device pubkey bytes `5`, raw
signature bytes `7` (the raw-section stream of the sample transaction has
length 45), any other signature bytes `8`, code hash `9`, data hash `11`,
memo hash `13`. -/
def envA : SignEnv :=
  { extract := .ok (List.replicate 32 5)
    sign := fun m =>
      .ok (if m.headD 0 = 45 then List.replicate 64 7 else List.replicate 64 8)
    sha := fun s => (s.length % 256) :: List.replicate 31 0
    hashCode := .ok (List.replicate 32 9)
    hashData := .ok (List.replicate 32 11)
    hashMemo := .ok (List.replicate 32 13) }

/-- `envA` with a host signing failure. -/
def envAsignFail : SignEnv := { envA with sign := fun _ => .error () }

/-- A minimal transaction: no extra hashes, no memo, no prior signature
sections; code section index 1, data section index 2, 3 sections total. -/
def txSimple : TxObj :=
  { typeTx := .Other
    initAccountHash := [], initAccountIdx := 0
    updateVpHash := [], updateVpIdx := 0
    propContentHash := [], propContentIdx := 0
    propType := .Default
    propCodeHash := [], propCodeIdx := 0
    headerBytes := [], headerExtBytes := []
    codeIdx := 1, dataIdx := 2
    memoIdx := none
    sectionLen := 3
    signatures := [] }

/-- A prior signature section whose hash list consists exactly of the
code-section hash (`envA.hashCode` = 32 bytes of `9`) — every hash it
lists is present in the signing accumulator. -/
def psC1 : SignatureSection :=
  { salt := []
    hashes := [List.replicate 32 9]
    signerDiscriminant := AddressDisc
    pubKeysLen := 0
    pubKeys := []
    addressBytes := []
    signaturesLen := 0
    indexedSignatures := []
    idx := 7 }

/-- `txSimple` extended with the prior signature section `psC1`. -/
def txC1 : TxObj := { txSimple with signatures := [psC1] }

/-- An empty-hash-list prior signature section (always passes the code's
recognition test) with section index `j`. -/
def emptyPrior (j : Nat) : SignatureSection :=
  { salt := []
    hashes := []
    signerDiscriminant := AddressDisc
    pubKeysLen := 0
    pubKeys := []
    addressBytes := []
    signaturesLen := 0
    indexedSignatures := []
    idx := j }

/-- An `InitProposal`(`DefaultWithWasm`) transaction with a memo and four
prior signature sections: the accumulator collects
header + content + proposal-code + raw-signature + code + data + memo +
4 priors = 11 hashes. -/
def txC3 : TxObj :=
  { txSimple with
      typeTx := .InitProposal
      propContentHash := List.replicate 32 21, propContentIdx := 3
      propType := .DefaultWithWasm
      propCodeHash := List.replicate 32 22, propCodeIdx := 4
      memoIdx := some 5
      sectionLen := 8
      signatures := [emptyPrior 10, emptyPrior 11, emptyPrior 12, emptyPrior 13] }

/-! ### MASP fixtures -/

/-- A sample MASP environment in which every external primitive succeeds:
value commitments are `[value, rcv₀, id₀]` (padded), `rk` is all-zero,
spend signatures are 64 bytes of `1`. -/
def envM : MaspEnv :=
  { deriveSeedBytes := .ok (List.replicate 32 2)
    masterFromSeed := fun _ => (false, List.replicate 32 6)
    convertKey := fun _ m => .ok [m]
    generateKey := fun _ g => .ok [g]
    computeIVKBytes := fun _ _ => .ok []
    computeDiversifierBytes := fun _ _ => .ok []
    computePkdBytes := fun _ _ => .ok []
    signatureHash := [9]
    spendSigOracle := fun _ _ _ => .ok (List.replicate 64 1)
    spendItem := fun _ => ([3], [4])
    outputItem := fun e => [3 + e]
    convertItem := fun _ => []
    cvOf := fun v rcv id => [v % 256, rcv.headD 0, id.headD 0]
    rkOf := fun _ _ => .ok []
    spendDescStart := fun _ => 0
    outputDescStart := fun i => 95 * i
    convertDescStart := fun _ => 0
    sha := fun s => (s.length % 256) :: List.replicate 31 0 }

/-- `envM` with `computeMasterFromSeed` failing after leaving bytes `7`
in the destination spending-key buffer. -/
def envMmasterFail : MaspEnv :=
  { envM with masterFromSeed := fun _ => (true, List.replicate 32 7) }

/-- A MASP transaction with one spend (builder and bundle agree), no
outputs and no converts: the builder spend description carries
identifier bytes `1` and value `5`; the bundle's commitment slot holds
the matching recomputed commitment `[5, 3, 1]` (padded) and an all-zero
`rk` slot. -/
def txM1 : MaspTx :=
  { n_spends := 1
    n_shielded_spends := 1
    n_outputs := 0
    n_outputs_indices := 0
    n_converts := 0
    n_shielded_converts := 0
    builderSpends := zeros 180 ++ List.replicate 32 1 ++ le64 5
    builderOutputs := []
    builderConverts := []
    shieldedSpends := padTake 32 [5, 3, 1] ++ zeros 64
    shieldedOutputs := []
    shieldedConverts := []
    outputsIndices := []
    txBuffer := [1, 2, 3] }

/-- A MASP transaction with two outputs and indices stream `[1, 0]`: the
builder descriptions (95 bytes each, no ovk) carry identifiers `1`/`2`
and values `10`/`20`; the bundle commitment slots are filled so that the
CODE's pairing (builder description by loop counter, slot and blinding
factor by stream index) matches, i.e. slot 1 holds the commitment of
builder description 0 with blinding factor 1. -/
def txC5 : MaspTx :=
  { n_spends := 0
    n_shielded_spends := 0
    n_outputs := 2
    n_outputs_indices := 2
    n_converts := 0
    n_shielded_converts := 0
    builderSpends := []
    builderOutputs :=
      ([0] ++ zeros 54 ++ List.replicate 32 1 ++ le64 10) ++
      ([0] ++ zeros 54 ++ List.replicate 32 2 ++ le64 20)
    builderConverts := []
    shieldedSpends := []
    shieldedOutputs :=
      writeAt (writeAt (zeros 1576) 0 (padTake 32 [20, 3, 2])) 788
        (padTake 32 [10, 4, 1])
    shieldedConverts := []
    outputsIndices := le64 1 ++ le64 0
    txBuffer := [] }

/-- A tagged public key as serialized inside a signature section's
`pubKeys` byte stream: 1-byte key-kind tag, then the raw key bytes. -/
structure TaggedKey where
  tag : Nat
  bytes : Bytes
deriving DecidableEq

/-- A well-formed tagged key: a recognized tag and the matching length. -/
def keyWf (k : TaggedKey) : Prop :=
  (k.tag = key_ed25519 ∧ k.bytes.length = PK_LEN_25519) ∨
  (k.tag = key_secp256k1 ∧ k.bytes.length = COMPRESSED_SECP256K1_PK_LEN)

/-- The byte encoding of a list of tagged keys, as walked by
`crypto_hashSigSection`. -/
def encKeys (ks : List TaggedKey) : Bytes :=
  (ks.map (fun k => k.tag :: k.bytes)).flatten

/-- An indexed signature as serialized inside `indexedSignatures`:
1-byte slot index, 1-byte key-kind tag, then the signature bytes. -/
structure IndexedSig where
  slot : Nat
  tag : Nat
  bytes : Bytes
deriving DecidableEq

/-- A well-formed indexed signature: recognized tag, matching length. -/
def sigWf (g : IndexedSig) : Prop :=
  (g.tag = key_ed25519 ∧ g.bytes.length = ED25519_SIGNATURE_SIZE) ∨
  (g.tag = key_secp256k1 ∧ g.bytes.length = SIG_SECP256K1_LEN)

/-- The byte encoding of a list of indexed signatures. -/
def encSigs (sgs : List IndexedSig) : Bytes :=
  (sgs.map (fun g => g.slot :: g.tag :: g.bytes)).flatten

/-- A sample signature section: one hash, one ed25519 public key (bytes
`7`), one ed25519 indexed signature (slot 2, bytes `9`). -/
def sC6 : SignatureSection :=
  { salt := []
    hashes := [List.replicate 32 1]
    signerDiscriminant := PubKeysDisc
    pubKeysLen := 1
    pubKeys := encKeys [⟨key_ed25519, List.replicate 32 7⟩]
    addressBytes := []
    signaturesLen := 1
    indexedSignatures := encSigs [⟨2, key_ed25519, List.replicate 64 9⟩]
    idx := 0 }

/-- `sC6` with an unrecognized public-key tag (`5`). -/
def sC6bad : SignatureSection :=
  { sC6 with pubKeys := encKeys [⟨5, List.replicate 32 7⟩] }

/-- `sC6` (a `PubKeys` section with a valid public-key tag) whose single
indexed signature carries an unrecognized key-kind tag (`5`). -/
def sC6badSig : SignatureSection :=
  { sC6 with indexedSignatures := encSigs [⟨2, 5, List.replicate 64 9⟩] }

/-! ### Generic buffer lemmas -/

theorem length_zeros (n : Nat) : (zeros n).length = n := by
  simp [zeros]

theorem getD_zeros (n i : Nat) : (zeros n).getD i 0 = 0 := by
  simp only [zeros, List.getD_eq_getElem?_getD, List.getElem?_replicate]
  by_cases h : i < n <;> simp [h]

theorem length_padTake (n : Nat) (l : Bytes) : (padTake n l).length = n := by
  simp [padTake, zeros]

theorem length_writeAt (buf data : Bytes) (pos : Nat)
    (h : pos + data.length ≤ buf.length) :
    (writeAt buf pos data).length = buf.length := by
  simp only [writeAt, List.length_append, List.length_take, List.length_drop]
  omega

theorem getD_writeAt_lt (buf data : Bytes) (pos i : Nat) (h : i < pos)
    (hp : pos ≤ buf.length) :
    (writeAt buf pos data).getD i 0 = buf.getD i 0 := by
  have hl : (buf.take pos).length = pos := by simp; omega
  simp only [writeAt, List.getD_eq_getElem?_getD, List.append_assoc,
    List.getElem?_append, hl, if_pos h, List.getElem?_take, if_pos h]

theorem getD_writeAt_inside (buf data : Bytes) (pos i : Nat) (h1 : pos ≤ i)
    (h2 : i < pos + data.length) (hp : pos ≤ buf.length) :
    (writeAt buf pos data).getD i 0 = data.getD (i - pos) 0 := by
  have hl : (buf.take pos).length = pos := by simp; omega
  simp only [writeAt, List.getD_eq_getElem?_getD, List.append_assoc]
  rw [List.getElem?_append_right (by omega : (buf.take pos).length ≤ i)]
  rw [List.getElem?_append, hl, if_pos (by omega : i - pos < data.length)]

theorem getD_writeAt_ge (buf data : Bytes) (pos i : Nat)
    (h : pos + data.length ≤ i) (hp : pos ≤ buf.length) :
    (writeAt buf pos data).getD i 0 = buf.getD i 0 := by
  have hl : (buf.take pos).length = pos := by simp; omega
  simp only [writeAt, List.getD_eq_getElem?_getD, List.append_assoc]
  rw [List.getElem?_append_right (by omega : (buf.take pos).length ≤ i)]
  rw [List.getElem?_append_right (by rw [hl]; omega : data.length ≤ i - (buf.take pos).length)]
  rw [List.getElem?_drop]
  rw [show pos + List.length data + (i - (List.take pos buf).length - List.length data) = i by
    rw [hl]; omega]

theorem getD_slice (buf : Bytes) (pos n i : Nat) :
    (slice buf pos n).getD i 0 = if i < n then buf.getD (pos + i) 0 else 0 := by
  simp only [slice, List.getD_eq_getElem?_getD, List.getElem?_take,
    List.getElem?_drop]
  by_cases h : i < n <;> simp [h]


/-! ### Claim C1 -/

set_option maxRecDepth 100000 in
/-- C1: the claim states that a prior signature section's prefixed digest
is appended iff every hash it lists is byte-equal to some hash in the
accumulator.  The code instead compares (for every `j`, `k`) only the
section's FIRST hash against the accumulator's FIRST hash
(`memcmp(prev_sig->hashes.hashes.ptr, signature_section.hashes.hashes.ptr, HASH_LEN)`
at `crypto.c:731` never advances either pointer), contradicting its own
comments ("Check if we know the hash that was signed over").  Failing
input: a prior section listing exactly the code-section hash — every hash
it lists is in the accumulator, yet the section is skipped: the final
accumulator has 4 entries, does not contain the section's prefixed
digest, and the section's index never enters the origin-index list. -/
theorem claim_C1_subset_filter_bug :
    (crypto_sign envA txC1 239 (zeros 239)).err = Zxerr.ok ∧
    (∀ h ∈ psC1.hashes, padTake HASH_LEN h ∈ (crypto_sign envA txC1 239 (zeros 239)).acc) ∧
    (crypto_sign envA txC1 239 (zeros 239)).acc.length = 4 ∧
    psC1.idx ∉ (crypto_sign envA txC1 239 (zeros 239)).accIdx ∧
    crypto_hashSigSection envA.sha (some 3) psC1 =
      Except.ok (padTake HASH_LEN
        (envA.sha ([3] ++ le32 1 ++ List.replicate 32 9 ++ [1] ++ le32 0))) ∧
    padTake HASH_LEN
        (envA.sha ([3] ++ le32 1 ++ List.replicate 32 9 ++ [1] ++ le32 0)) ∉
      (crypto_sign envA txC1 239 (zeros 239)).acc := by
  decide

/-! ### Claim C3 -/

set_option maxRecDepth 100000 in
/-- C3: the claim states every append path rejects with
`CapacityExceeded` once 10 hashes are held.  The code has no capacity
check at all: on `txC3` the accumulator grows to 11 entries (one past the
10-slot `hashes_buffer`/`indices_buffer`) and `crypto_sign` still returns
success — in C this is an out-of-bounds write, not an error return. -/
theorem claim_C3_capacity_bug :
    (crypto_sign envA txC3 239 (zeros 239)).err = Zxerr.ok ∧
    (crypto_sign envA txC3 239 (zeros 239)).acc.length = 11 ∧
    MAX_SIGNATURE_HASHES < (crypto_sign envA txC3 239 (zeros 239)).acc.length ∧
    (crypto_sign envA txC3 239 (zeros 239)).accIdx.length = 11 := by
  decide

/-! ### Claim C9 -/

set_option maxRecDepth 100000 in
/-- C9 counterexample: the claim places `tag(1)+wrapperSig(64)`
"immediately after at offset 130".  On the sample run the wrapper
signature bytes (all `8`) start at offset 163, not 131: bytes 130..161
are a second, zero-filled 32-byte salt region (the minimum buffer size
`PK_LEN_25519_PLUS_TAG + 2*SALT_LEN + 2*SIG_LEN_25519_PLUS_TAG + 2 + 10`
budgets two salts). -/
theorem claim_C9_counterexample :
    slice (crypto_sign envA txSimple 239 (zeros 239)).buf 131 64 ≠
      List.replicate 64 8 ∧
    slice (crypto_sign envA txSimple 239 (zeros 239)).buf 163 64 =
      List.replicate 64 8 ∧
    slice (crypto_sign envA txSimple 239 (zeros 239)).buf 130 32 =
      List.replicate 32 0 := by
  decide

set_option maxRecDepth 100000 in
/-- C9 (amended): on success the output buffer layout is
`tag(1)+pubkey(32) | salt(32) | tag(1)+rawSig(64) | 32 zero bytes
(second salt region) | tag(1)+wrapperSig(64) at offset 162 |
rawIndicesLen(1)+rawIndices at offset 227 | finalIndicesLen(1)+finalIndices`,
with the two count bytes equal to the number of hashes accumulated at the
raw stage and at the final stage respectively — verified bit-exactly on
the sample transaction (device pubkey bytes 5, zero salt, raw signature
bytes 7, wrapper signature bytes 8, raw indices `[255]`, final indices
`[0, 4, 1, 2]`). -/
theorem claim_C9_layout :
    (crypto_sign envA txSimple 239 (zeros 239)).err = Zxerr.ok ∧
    (crypto_sign envA txSimple 239 (zeros 239)).buf =
      [0] ++ List.replicate 32 5 ++ List.replicate 32 0 ++ [0] ++
      List.replicate 64 7 ++ List.replicate 32 0 ++ [0] ++
      List.replicate 64 8 ++ [1, 255, 4, 0, 4, 1, 2] ++ List.replicate 5 0 ∧
    (crypto_sign envA txSimple 239 (zeros 239)).buf.getD 227 0 =
      (crypto_sign envA txSimple 239 (zeros 239)).rawIndices.length ∧
    (crypto_sign envA txSimple 239 (zeros 239)).buf.getD 229 0 =
      (crypto_sign envA txSimple 239 (zeros 239)).acc.length := by
  decide


/-! ### Claim C7 -/

set_option maxRecDepth 100000 in
/-- C7: the claim states every exit path zeroes all secret-key buffers,
"including the early error return when deriving the master spending key
from the seed fails" — but on exactly that path (`crypto.c:893` and
`crypto.c:1225`) the code zeroes only the seed, not the `keys_t`
structure: with `computeMasterFromSeed` failing after writing bytes `7`
into the spending-key buffer, both `crypto_generateSaplingKeys` and
`crypto_sign_masp` return with those bytes still in `keys.spendingKey`. -/
theorem claim_C7_zeroing_bug :
    (crypto_generateSaplingKeys envMmasterFail 96 (zeros 96) .PublicAddress).err =
      Zxerr.unknown ∧
    (crypto_generateSaplingKeys envMmasterFail 96 (zeros 96) .PublicAddress).sk =
      zeros 32 ∧
    (crypto_generateSaplingKeys envMmasterFail 96 (zeros 96) .PublicAddress).keys.spendingKey =
      List.replicate 32 7 ∧
    (crypto_generateSaplingKeys envMmasterFail 96 (zeros 96) .PublicAddress).keys ≠
      Keys.zero ∧
    (crypto_sign_masp envMmasterFail txM1 64 (zeros 64)).err = Zxerr.unknown ∧
    (crypto_sign_masp envMmasterFail txM1 64 (zeros 64)).keys.spendingKey =
      List.replicate 32 7 ∧
    (crypto_sign_masp envMmasterFail txM1 64 (zeros 64)).keys ≠ Keys.zero := by
  decide

/-! ### Claim C2 -/

set_option maxRecDepth 100000 in
/-- C2 counterexample: the claim states a failed `crypto_sign` leaves the
output buffer entirely zero.  With the host signing step failing after
the public key was written, `crypto_sign` returns an error while the
33-byte public-key block (bytes `5` at offsets 1..32) is still in the
buffer. -/
theorem claim_C2_counterexample :
    (crypto_sign envAsignFail txSimple 239 (zeros 239)).err = Zxerr.unknown ∧
    (crypto_sign envAsignFail txSimple 239 (zeros 239)).buf.getD 1 0 = 5 := by
  decide

/-! ### Claim C5 -/


set_option maxRecDepth 1000000 in
/-- C5 counterexample: the claim states the index read from the indices
stream locates BOTH the builder's output description and the bundle
slot.  On `txC5` the code (`checkOutputs`, which passes the loop counter
to `getNextOutputDescription`) accepts, while the claim's reading
(`checkOutputsClaim`, which uses the stream index for the builder
description too) rejects with `InvalidCv` — so the builder description
is NOT located by the stream index. -/
theorem claim_C5_counterexample :
    (checkOutputs envM txC5).1 = Except.ok () ∧
    (checkOutputsClaim envM txC5).1 = Except.error PErr.invalidCv := by
  decide

/-- Shape of the comparison events of the `checkOutputs` loop, started at
iteration `i` with the indices stream at offset `8 * i`: every event
records the builder-description start for its ITERATION counter, the
stream index read at offset `8 * iter`, and the bundle offset
`SHIELDED_OUTPUTS_LEN * idx`; and an `InvalidCv` result comes from an
actual mismatch at one of the recorded comparisons. -/
theorem checkOutputsLoop_event_shape (env : MaspEnv) (tx : MaspTx) :
    ∀ n i,
      (∀ iter idx dstart boff,
        MEvent.cvOutput iter idx dstart boff ∈ (checkOutputsLoop env tx i n (8 * i)).2 →
        dstart = env.outputDescStart iter ∧
        idx = decodeLE (slice tx.outputsIndices (8 * iter) 8) ∧
        boff = SHIELDED_OUTPUTS_LEN * idx) ∧
      ((checkOutputsLoop env tx i n (8 * i)).1 = Except.error PErr.invalidCv →
        ∃ iter idx,
          MEvent.cvOutput iter idx (env.outputDescStart iter)
            (SHIELDED_OUTPUTS_LEN * idx) ∈ (checkOutputsLoop env tx i n (8 * i)).2 ∧
          outputCvAt env tx iter idx ≠
            slice tx.shieldedOutputs (SHIELDED_OUTPUTS_LEN * idx) CV_LEN) := by
  intro n
  induction n with
  | zero =>
    intro i
    refine ⟨fun iter idx dstart boff h => ?_, fun h => ?_⟩
    · simp [checkOutputsLoop] at h
    · simp [checkOutputsLoop] at h
  | succ n ih =>
    intro i
    have harith : 8 * i + 8 = 8 * (i + 1) := by ring
    rcases hsplit : checkOutputsLoop env tx (i + 1) n (8 * (i + 1)) with ⟨res, evs⟩
    have ih1 := (ih (i + 1)).1
    have ih2 := (ih (i + 1)).2
    rw [hsplit] at ih1 ih2
    constructor
    · intro iter idx dstart boff h
      simp only [checkOutputsLoop, harith, hsplit] at h
      split at h
      · simp at h
      split at h
      · simp at h
      split at h
      · simp at h
      split at h
      · simp at h
      split at h
      · rcases List.mem_cons.mp h with hh | hh
        · rw [MEvent.cvOutput.injEq] at hh
          obtain ⟨h1, h2, h3, h4⟩ := hh
          subst h1; subst h2; subst h3; subst h4
          exact ⟨rfl, rfl, rfl⟩
        · simp at hh
      · rcases List.mem_cons.mp h with hh | hh
        · rw [MEvent.cvOutput.injEq] at hh
          obtain ⟨h1, h2, h3, h4⟩ := hh
          subst h1; subst h2; subst h3; subst h4
          exact ⟨rfl, rfl, rfl⟩
        · exact ih1 iter idx dstart boff hh
    · simp only [checkOutputsLoop, harith, hsplit]
      split
      · intro h
        simp at h
      split
      · intro h
        simp at h
      split
      · intro h
        simp at h
      split
      · intro h
        simp at h
      split
      · intro h
        rename_i hne
        exact ⟨i, decodeLE (slice tx.outputsIndices (8 * i) 8),
          List.mem_singleton.mpr rfl, hne⟩
      · intro h
        simp only at h
        rcases ih2 h with ⟨iter, idx, hmem, hcv⟩
        exact ⟨iter, idx, List.mem_cons_of_mem _ hmem, hcv⟩

/-- C5 (amended): in `checkOutputs`, every comparison event uses the
builder output description located for the ITERATION counter
(`getNextOutputDescription` receives the loop counter `i`, not the stream
index), while the index read from the separate indices stream at offset
`8 * i` selects both the device-held blinding factor and the bundle slot
at byte offset `index * SHIELDED_OUTPUTS_LEN`; an `InvalidCv` result
comes from an actual mismatch between a so-recomputed commitment and the
bundle bytes at that slot; and a builder/metadata count mismatch yields
`InvalidNumberOfOutputs` with no comparison performed. -/
theorem claim_C5_output_indexing (env : MaspEnv) (tx : MaspTx) :
    (∀ iter idx dstart boff,
      MEvent.cvOutput iter idx dstart boff ∈ (checkOutputs env tx).2 →
      dstart = env.outputDescStart iter ∧
      idx = decodeLE (slice tx.outputsIndices (8 * iter) 8) ∧
      boff = SHIELDED_OUTPUTS_LEN * idx) ∧
    ((checkOutputs env tx).1 = Except.error PErr.invalidCv →
      ∃ iter idx,
        MEvent.cvOutput iter idx (env.outputDescStart iter)
          (SHIELDED_OUTPUTS_LEN * idx) ∈ (checkOutputs env tx).2 ∧
        outputCvAt env tx iter idx ≠
          slice tx.shieldedOutputs (SHIELDED_OUTPUTS_LEN * idx) CV_LEN) ∧
    (tx.n_outputs ≠ tx.n_outputs_indices →
      checkOutputs env tx = (Except.error PErr.invalidNumberOfOutputs, [])) := by
  have key := checkOutputsLoop_event_shape env tx tx.n_outputs_indices 0
  rw [Nat.mul_zero] at key
  by_cases hc : tx.n_outputs ≠ tx.n_outputs_indices
  · refine ⟨fun iter idx dstart boff h => ?_, fun h => ?_, fun _ => ?_⟩
    · simp [checkOutputs, if_pos hc] at h
    · simp [checkOutputs, if_pos hc] at h
    · simp [checkOutputs, if_pos hc]
  · refine ⟨fun iter idx dstart boff h => ?_, fun h => ?_, fun hcc => absurd hcc hc⟩
    · rw [checkOutputs, if_neg hc] at h
      exact key.1 iter idx dstart boff h
    · rw [checkOutputs, if_neg hc] at h ⊢
      exact key.2 h

set_option maxRecDepth 1000000 in
/-- C5 witness: on `txC5` the first comparison event exists and the
amended characterization applies to it. -/
theorem claim_C5_output_indexing_w :
    MEvent.cvOutput 0 1 0 788 ∈ (checkOutputs envM txC5).2 ∧
    (0 = envM.outputDescStart 0 ∧
     1 = decodeLE (slice txC5.outputsIndices 0 8) ∧
     788 = SHIELDED_OUTPUTS_LEN * 1) :=
  ⟨by decide,
   by
    have h := (claim_C5_output_indexing envM txC5).1 0 1 0 788 (by decide)
    simpa using h⟩

/-! ### Claim C8 -/

/-- The `checkSpends` loop never yields `InvalidNumberOfSpends`: that
error arises only from the count comparison before the loop. -/
theorem checkSpendsLoop_no_count_error (env : MaspEnv) (tx : MaspTx) (k : Keys) :
    ∀ n i, (checkSpendsLoop env tx k i n).1 ≠
      Except.error PErr.invalidNumberOfSpends := by
  intro n
  induction n with
  | zero =>
    intro i
    simp [checkSpendsLoop]
  | succ n ih =>
    intro i
    rcases hsplit : checkSpendsLoop env tx k (i + 1) n with ⟨res, evs⟩
    have ihx := ih (i + 1)
    rw [hsplit] at ihx
    simp only [checkSpendsLoop, hsplit]
    split
    · simp
    split
    · simp
    split
    · simp
    split
    · simp
    split
    · simp
    split
    · simp
    split
    · simp
    exact ihx

/-- C8: `checkSpends` returns `InvalidNumberOfSpends` exactly when the
builder's spend count differs from the bundle's declared shielded-spend
count; in the mismatch case no per-spend recomputation or comparison has
run (the event trace is empty); when the counts are equal the result is
whatever the per-spend loop produces — never `InvalidNumberOfSpends`. -/
theorem claim_C8_spend_count_gate (env : MaspEnv) (tx : MaspTx) (k : Keys) :
    ((checkSpends env tx k).1 = Except.error PErr.invalidNumberOfSpends ↔
      tx.n_spends ≠ tx.n_shielded_spends) ∧
    (tx.n_spends ≠ tx.n_shielded_spends → (checkSpends env tx k).2 = []) ∧
    (tx.n_spends = tx.n_shielded_spends →
      checkSpends env tx k = checkSpendsLoop env tx k 0 tx.n_spends) := by
  by_cases hc : tx.n_spends ≠ tx.n_shielded_spends
  · refine ⟨⟨fun _ => hc, fun _ => ?_⟩, fun _ => ?_, fun hcc => absurd hcc hc⟩
    · simp [checkSpends, if_pos hc]
    · simp [checkSpends, if_pos hc]
  · refine ⟨⟨fun h => ?_, fun hcc => absurd hcc hc⟩, fun hcc => absurd hcc hc,
      fun _ => ?_⟩
    · rw [checkSpends, if_neg hc] at h
      exact absurd h (checkSpendsLoop_no_count_error env tx k tx.n_spends 0)
    · rw [checkSpends, if_neg hc]

/-- C8 witness: a builder declaring 2 spends against a bundle declaring 1
fails with `InvalidNumberOfSpends` and no comparison event. -/
theorem claim_C8_spend_count_gate_w :
    ((checkSpends envM { txM1 with n_spends := 2 } Keys.zero).1 =
      Except.error PErr.invalidNumberOfSpends ↔
      ({ txM1 with n_spends := 2 } : MaspTx).n_spends ≠
        ({ txM1 with n_spends := 2 } : MaspTx).n_shielded_spends) ∧
    (checkSpends envM { txM1 with n_spends := 2 } Keys.zero).2 = [] :=
  ⟨(claim_C8_spend_count_gate envM { txM1 with n_spends := 2 } Keys.zero).1,
   (claim_C8_spend_count_gate envM { txM1 with n_spends := 2 } Keys.zero).2.1
     (by decide)⟩

/-! ### Claim C4 -/

/-- Events of the `checkSpends` loop are per-spend recomputations only. -/
theorem checkSpendsLoop_event_kinds (env : MaspEnv) (tx : MaspTx) (k : Keys) :
    ∀ n i ev, ev ∈ (checkSpendsLoop env tx k i n).2 →
      ∃ j, ev = MEvent.cvSpend j ∨ ev = MEvent.rkSpend j := by
  intro n
  induction n with
  | zero =>
    intro i ev h
    simp [checkSpendsLoop] at h
  | succ n ih =>
    intro i ev h
    rcases hsplit : checkSpendsLoop env tx k (i + 1) n with ⟨res, evs⟩
    have ihx := ih (i + 1)
    rw [hsplit] at ihx
    simp only [checkSpendsLoop, hsplit] at h
    split at h
    · simp at h
    split at h
    · simp at h
    split at h
    · simp at h
    split at h
    · simp only [List.mem_singleton] at h
      exact ⟨i, Or.inl h⟩
    split at h
    · simp only [List.mem_singleton] at h
      exact ⟨i, Or.inl h⟩
    split at h
    · simp only [List.mem_cons, List.not_mem_nil, or_false] at h
      rcases h with h | h
      · exact ⟨i, Or.inl h⟩
      · exact ⟨i, Or.inr h⟩
    split at h
    · simp only [List.mem_cons, List.not_mem_nil, or_false] at h
      rcases h with h | h
      · exact ⟨i, Or.inl h⟩
      · exact ⟨i, Or.inr h⟩
    · simp only [List.mem_cons] at h
      rcases h with h | h | h
      · exact ⟨i, Or.inl h⟩
      · exact ⟨i, Or.inr h⟩
      · exact ihx ev h

/-- Events of the `checkOutputs` loop are output-commitment comparisons
only. -/
theorem checkOutputsLoop_event_kinds (env : MaspEnv) (tx : MaspTx) :
    ∀ n i io ev, ev ∈ (checkOutputsLoop env tx i n io).2 →
      ∃ a b c d, ev = MEvent.cvOutput a b c d := by
  intro n
  induction n with
  | zero =>
    intro i io ev h
    simp [checkOutputsLoop] at h
  | succ n ih =>
    intro i io ev h
    rcases hsplit : checkOutputsLoop env tx (i + 1) n (io + 8) with ⟨res, evs⟩
    have ihx := ih (i + 1) (io + 8)
    rw [hsplit] at ihx
    simp only [checkOutputsLoop, hsplit] at h
    split at h
    · simp at h
    split at h
    · simp at h
    split at h
    · simp at h
    split at h
    · simp at h
    split at h
    · simp only [List.mem_singleton] at h
      exact ⟨_, _, _, _, h⟩
    · simp only [List.mem_cons] at h
      rcases h with h | h
      · exact ⟨_, _, _, _, h⟩
      · exact ihx ev h

/-- Events of the `checkConverts` loop are convert-commitment comparisons
only. -/
theorem checkConvertsLoop_event_kinds (env : MaspEnv) (tx : MaspTx) :
    ∀ n i t ev, ev ∈ (checkConvertsLoop env tx i n t).2 →
      ∃ j, ev = MEvent.cvConvert j := by
  intro n
  induction n with
  | zero =>
    intro i t ev h
    simp [checkConvertsLoop] at h
  | succ n ih =>
    intro i t ev h
    rcases hsplit : checkConvertsLoop env tx (i + 1) n
      (t + SHIELDED_CONVERTS_LEN * i) with ⟨res, evs⟩
    have ihx := ih (i + 1) (t + SHIELDED_CONVERTS_LEN * i)
    rw [hsplit] at ihx
    simp only [checkConvertsLoop, hsplit] at h
    split at h
    · simp at h
    split at h
    · simp at h
    split at h
    · simp at h
    split at h
    · simp at h
    split at h
    · simp only [List.mem_singleton] at h
      exact ⟨i, h⟩
    · simp only [List.mem_cons] at h
      rcases h with h | h
      · exact ⟨i, h⟩
      · exact ihx ev h

/-- Events of the shielded-spend signing loop are `signSpend` only. -/
theorem signSpendsLoop_event_kinds (env : MaspEnv) (ask signHash : Bytes) :
    ∀ n i ev, ev ∈ (signSpendsLoop env ask signHash i n).2.2 →
      ∃ j, ev = MEvent.signSpend j := by
  intro n
  induction n with
  | zero =>
    intro i ev h
    simp [signSpendsLoop] at h
  | succ n ih =>
    intro i ev h
    rcases hsplit : signSpendsLoop env ask signHash (i + 1) n with ⟨res, st, tr⟩
    have ihx := ih (i + 1)
    rw [hsplit] at ihx
    simp only [signSpendsLoop, hsplit] at h
    split at h
    · simp at h
    · simp only [List.mem_cons] at h
      rcases h with h | h
      · exact ⟨i, h⟩
      · exact ihx ev h

/-- An event that is neither a spend-commitment nor a spend-key
recomputation is not among the `checkSpends` loop events. -/
theorem not_mem_of_kinds_spend {t : List MEvent}
    (hK : ∀ ev ∈ t, ∃ j, ev = MEvent.cvSpend j ∨ ev = MEvent.rkSpend j)
    {e : MEvent} (he : ∀ j, e ≠ MEvent.cvSpend j ∧ e ≠ MEvent.rkSpend j) :
    e ∉ t := fun hm => by
  rcases hK e hm with ⟨j, h | h⟩
  · exact (he j).1 h
  · exact (he j).2 h

/-- An event that is not an output-commitment comparison is not among the
`checkOutputs` loop events. -/
theorem not_mem_of_kinds_output {t : List MEvent}
    (hK : ∀ ev ∈ t, ∃ a b c d, ev = MEvent.cvOutput a b c d)
    {e : MEvent} (he : ∀ a b c d, e ≠ MEvent.cvOutput a b c d) :
    e ∉ t := fun hm => by
  rcases hK e hm with ⟨a, b, c, d, h⟩
  exact he a b c d h

/-- An event that is not a convert-commitment comparison is not among the
`checkConverts` loop events. -/
theorem not_mem_of_kinds_convert {t : List MEvent}
    (hK : ∀ ev ∈ t, ∃ j, ev = MEvent.cvConvert j)
    {e : MEvent} (he : ∀ j, e ≠ MEvent.cvConvert j) :
    e ∉ t := fun hm => by
  rcases hK e hm with ⟨j, h⟩
  exact he j h

/-- Trace discipline of `crypto_check_masp`: no `signSpend` event; the
outputs check starts only after the spends check succeeded; the converts
check starts only after both earlier checks succeeded; and a `zxerr_ok`
result implies all three success markers. -/
theorem crypto_check_masp_trace (env : MaspEnv) (tx : MaspTx) (k : Keys) :
    (∀ j, MEvent.signSpend j ∉ (crypto_check_masp env tx k).2) ∧
    (MEvent.startOutputs ∈ (crypto_check_masp env tx k).2 →
      MEvent.spendsOk ∈ (crypto_check_masp env tx k).2) ∧
    (MEvent.startConverts ∈ (crypto_check_masp env tx k).2 →
      MEvent.spendsOk ∈ (crypto_check_masp env tx k).2 ∧
      MEvent.outputsOk ∈ (crypto_check_masp env tx k).2) ∧
    ((crypto_check_masp env tx k).1 = Zxerr.ok →
      MEvent.spendsOk ∈ (crypto_check_masp env tx k).2 ∧
      MEvent.outputsOk ∈ (crypto_check_masp env tx k).2 ∧
      MEvent.convertsOk ∈ (crypto_check_masp env tx k).2) := by
  rcases h1 : checkSpends env tx k with ⟨r1, t1⟩
  rcases h2 : checkOutputs env tx with ⟨r2, t2⟩
  rcases h3 : checkConverts env tx with ⟨r3, t3⟩
  have hs1 : ∀ ev ∈ t1, ∃ j, ev = MEvent.cvSpend j ∨ ev = MEvent.rkSpend j := by
    intro ev h
    have hm : ev ∈ (checkSpends env tx k).2 := by rw [h1]; exact h
    rw [checkSpends] at hm
    split at hm
    · simp at hm
    · exact checkSpendsLoop_event_kinds env tx k _ _ _ hm
  have ho1 : ∀ ev ∈ t2, ∃ a b c d, ev = MEvent.cvOutput a b c d := by
    intro ev h
    have hm : ev ∈ (checkOutputs env tx).2 := by rw [h2]; exact h
    rw [checkOutputs] at hm
    split at hm
    · simp at hm
    · exact checkOutputsLoop_event_kinds env tx _ _ _ _ hm
  have hc1 : ∀ ev ∈ t3, ∃ j, ev = MEvent.cvConvert j := by
    intro ev h
    have hm : ev ∈ (checkConverts env tx).2 := by rw [h3]; exact h
    rw [checkConverts] at hm
    split at hm
    · simp at hm
    · exact checkConvertsLoop_event_kinds env tx _ _ _ _ hm
  have hfree : ∀ (e : MEvent), (∀ j, e ≠ MEvent.cvSpend j ∧ e ≠ MEvent.rkSpend j) →
      (∀ a b c d, e ≠ MEvent.cvOutput a b c d) → (∀ j, e ≠ MEvent.cvConvert j) →
      e ∉ t1 ∧ e ∉ t2 ∧ e ∉ t3 :=
    fun e hA hB hC =>
      ⟨not_mem_of_kinds_spend hs1 hA, not_mem_of_kinds_output ho1 hB,
       not_mem_of_kinds_convert hc1 hC⟩
  have hSign : ∀ j, MEvent.signSpend j ∉ t1 ∧ MEvent.signSpend j ∉ t2 ∧
      MEvent.signSpend j ∉ t3 :=
    fun j => hfree _ (fun _ => ⟨(fun h => nomatch h), (fun h => nomatch h)⟩)
      (fun _ _ _ _ h => nomatch h) (fun _ h => nomatch h)
  have hSO : MEvent.startOutputs ∉ t1 ∧ MEvent.startOutputs ∉ t2 ∧
      MEvent.startOutputs ∉ t3 :=
    hfree _ (fun _ => ⟨(fun h => nomatch h), (fun h => nomatch h)⟩)
      (fun _ _ _ _ h => nomatch h) (fun _ h => nomatch h)
  have hSC : MEvent.startConverts ∉ t1 ∧ MEvent.startConverts ∉ t2 ∧
      MEvent.startConverts ∉ t3 :=
    hfree _ (fun _ => ⟨(fun h => nomatch h), (fun h => nomatch h)⟩)
      (fun _ _ _ _ h => nomatch h) (fun _ h => nomatch h)
  rcases r1 with e1 | u1
  · simp only [crypto_check_masp, h1, h2, h3]
    refine ⟨fun j HJ => ?_, fun HJ => ?_, fun HJ => ?_, fun hok => ?_⟩
    · simp [(hSign j).1] at HJ
    · simp [hSO.1] at HJ
    · simp [hSC.1] at HJ
    · exact absurd hok (by decide)
  rcases r2 with e2 | u2
  · simp only [crypto_check_masp, h1, h2, h3]
    refine ⟨fun j HJ => ?_, fun _ => ?_, fun HJ => ?_, fun hok => ?_⟩
    · simp [(hSign j).1, (hSign j).2.1] at HJ
    · simp
    · simp [hSC.1, hSC.2.1] at HJ
    · exact absurd hok (by decide)
  rcases r3 with e3 | u3
  · simp only [crypto_check_masp, h1, h2, h3]
    refine ⟨fun j HJ => ?_, fun _ => ?_, fun _ => ?_, fun hok => ?_⟩
    · simp [(hSign j).1, (hSign j).2.1, (hSign j).2.2] at HJ
    · simp
    · constructor <;> simp
    · exact absurd hok (by decide)
  · simp only [crypto_check_masp, h1, h2, h3]
    refine ⟨fun j HJ => ?_, fun _ => ?_, fun _ => ?_, fun _ => ?_⟩
    · simp [(hSign j).1, (hSign j).2.1, (hSign j).2.2] at HJ
    · simp
    · constructor <;> simp
    · refine ⟨?_, ?_, ?_⟩ <;> simp

/-- C4: in `crypto_sign_masp`, no shielded spend signature is produced
(no `signSpend` event, and no signature enters the store) unless
`checkSpends`, `checkOutputs` and `checkConverts` have all succeeded
(their success markers are in the trace); and the checks run in the order
spends, outputs, converts, short-circuiting on the first failure: the
outputs check starts only after the spends check succeeded, and the
converts check only after the outputs check succeeded. -/
theorem claim_C4_masp_gating (env : MaspEnv) (tx : MaspTx) (L : Nat) (out : Bytes) :
    ((∃ j, MEvent.signSpend j ∈ (crypto_sign_masp env tx L out).trace) →
      MEvent.spendsOk ∈ (crypto_sign_masp env tx L out).trace ∧
      MEvent.outputsOk ∈ (crypto_sign_masp env tx L out).trace ∧
      MEvent.convertsOk ∈ (crypto_sign_masp env tx L out).trace) ∧
    ((crypto_sign_masp env tx L out).store ≠ [] →
      MEvent.spendsOk ∈ (crypto_sign_masp env tx L out).trace ∧
      MEvent.outputsOk ∈ (crypto_sign_masp env tx L out).trace ∧
      MEvent.convertsOk ∈ (crypto_sign_masp env tx L out).trace) ∧
    (MEvent.startOutputs ∈ (crypto_sign_masp env tx L out).trace →
      MEvent.spendsOk ∈ (crypto_sign_masp env tx L out).trace) ∧
    (MEvent.startConverts ∈ (crypto_sign_masp env tx L out).trace →
      MEvent.spendsOk ∈ (crypto_sign_masp env tx L out).trace ∧
      MEvent.outputsOk ∈ (crypto_sign_masp env tx L out).trace) := by
  simp only [crypto_sign_masp]
  split
  · simp
  split
  · simp
  split
  · simp
  split
  · simp
  split
  · rename_i hchk
    refine ⟨fun hj => ?_, fun hst => ?_, fun ho => ?_, fun hc => ?_⟩
    · rcases hj with ⟨j, hj⟩
      exact absurd hj ((crypto_check_masp_trace env tx _).1 j)
    · exact absurd rfl hst
    · exact (crypto_check_masp_trace env tx _).2.1 ho
    · exact (crypto_check_masp_trace env tx _).2.2.1 hc
  split
  · rename_i hchk hsp
    have hok := not_not.mp hchk
    have hm := (crypto_check_masp_trace env tx _).2.2.2 hok
    refine ⟨fun _ => ?_, fun _ => ?_, fun _ => ?_, fun _ => ?_⟩
    · exact ⟨List.mem_append_left _ hm.1, List.mem_append_left _ hm.2.1,
        List.mem_append_left _ hm.2.2⟩
    · exact ⟨List.mem_append_left _ hm.1, List.mem_append_left _ hm.2.1,
        List.mem_append_left _ hm.2.2⟩
    · exact List.mem_append_left _ hm.1
    · exact ⟨List.mem_append_left _ hm.1, List.mem_append_left _ hm.2.1⟩
  · rename_i hchk hsp
    have hok := not_not.mp hchk
    have hm := (crypto_check_masp_trace env tx _).2.2.2 hok
    refine ⟨fun _ => ?_, fun _ => ?_, fun _ => ?_, fun _ => ?_⟩
    · exact ⟨List.mem_append_left _ hm.1, List.mem_append_left _ hm.2.1,
        List.mem_append_left _ hm.2.2⟩
    · exact ⟨List.mem_append_left _ hm.1, List.mem_append_left _ hm.2.1,
        List.mem_append_left _ hm.2.2⟩
    · exact List.mem_append_left _ hm.1
    · exact ⟨List.mem_append_left _ hm.1, List.mem_append_left _ hm.2.1⟩

set_option maxRecDepth 400000 in
/-- C4 witness: a fully succeeding one-spend MASP signing run produces a
spend signature, and the theorem yields all three success markers. -/
theorem claim_C4_masp_gating_w :
    (∃ j, MEvent.signSpend j ∈ (crypto_sign_masp envM txM1 64 (zeros 64)).trace) ∧
    (MEvent.spendsOk ∈ (crypto_sign_masp envM txM1 64 (zeros 64)).trace ∧
     MEvent.outputsOk ∈ (crypto_sign_masp envM txM1 64 (zeros 64)).trace ∧
     MEvent.convertsOk ∈ (crypto_sign_masp envM txM1 64 (zeros 64)).trace) :=
  ⟨⟨0, by decide⟩,
   (claim_C4_masp_gating envM txM1 64 (zeros 64)).1 ⟨0, by decide⟩⟩

/-! ### Claim C6 -/



/-- Reading at offset `i` of a dropped list. -/
theorem getD_eq_getD_drop (buf : Bytes) (p i : Nat) :
    (buf.drop p).getD i 0 = buf.getD (p + i) 0 := by
  simp [List.getD_eq_getElem?_getD, List.getElem?_drop]

/-- The public-key tag walk over an encoded well-formed key list ends
exactly at the end of the encoding. -/
theorem pubkeysWalk_enc :
    ∀ (ks : List TaggedKey) (buf rest : Bytes) (p : Nat),
      (∀ k ∈ ks, keyWf k) → buf.drop p = encKeys ks ++ rest →
      pubkeysWalk buf ks.length p = .ok (p + (encKeys ks).length) := by
  intro ks
  induction ks with
  | nil =>
    intro buf rest p _ _
    simp [pubkeysWalk, encKeys]
  | cons k ks ih =>
    intro buf rest p hwf hdrop
    have hget : buf.getD p 0 = k.tag := by
      have h0 := getD_eq_getD_drop buf p 0
      rw [hdrop] at h0
      simpa [encKeys] using h0.symm
    have hdrop2 : buf.drop (p + 1 + k.bytes.length) = encKeys ks ++ rest := by
      have hd : buf.drop (p + (1 + k.bytes.length)) =
          (buf.drop p).drop (1 + k.bytes.length) := by
        rw [List.drop_drop]
      have : (k.tag :: k.bytes).length = 1 + k.bytes.length := by simp only [List.length_cons]; omega
      calc buf.drop (p + 1 + k.bytes.length)
          = (buf.drop p).drop (1 + k.bytes.length) := by rw [← hd]; ring_nf
        _ = encKeys ks ++ rest := by
            rw [hdrop]
            have he : encKeys (k :: ks) = (k.tag :: k.bytes) ++ encKeys ks := by
              simp [encKeys]
            rw [he, List.append_assoc, ← this, List.drop_left]
    have hlen : (encKeys (k :: ks)).length =
        1 + k.bytes.length + (encKeys ks).length := by
      simp [encKeys]
      omega
    rcases hwf k (by simp) with ⟨ht, hl⟩ | ⟨ht, hl⟩
    · show pubkeysWalk buf (ks.length + 1) p = _
      rw [pubkeysWalk]
      simp only [hget, ht, eq_self_iff_true, if_true]
      rw [show p + 1 + PK_LEN_25519 = p + 1 + k.bytes.length by rw [hl]]
      rw [ih buf rest _ (fun x hx => hwf x (by simp [hx])) hdrop2]
      rw [hlen]
      congr 1
      omega
    · show pubkeysWalk buf (ks.length + 1) p = _
      rw [pubkeysWalk]
      simp only [hget, ht]
      rw [if_neg (show ¬ (key_secp256k1 = key_ed25519) by decide)]
      simp only [eq_self_iff_true, if_true]
      rw [show p + 1 + COMPRESSED_SECP256K1_PK_LEN = p + 1 + k.bytes.length by rw [hl]]
      rw [ih buf rest _ (fun x hx => hwf x (by simp [hx])) hdrop2]
      rw [hlen]
      congr 1
      omega

/-- The public-key tag walk fails with `zxerr_unknown` at the first entry
whose tag is neither ed25519 nor secp256k1. -/
theorem pubkeysWalk_enc_bad :
    ∀ (good : List TaggedKey) (bad : TaggedKey) (ks2 : List TaggedKey)
      (buf rest : Bytes) (p : Nat),
      (∀ k ∈ good, keyWf k) →
      bad.tag ≠ key_ed25519 → bad.tag ≠ key_secp256k1 →
      buf.drop p = encKeys (good ++ bad :: ks2) ++ rest →
      pubkeysWalk buf (good ++ bad :: ks2).length p = .error .unknown := by
  intro good
  induction good with
  | nil =>
    intro bad ks2 buf rest p _ hb1 hb2 hdrop
    have hget : buf.getD p 0 = bad.tag := by
      have h0 := getD_eq_getD_drop buf p 0
      rw [hdrop] at h0
      simpa [encKeys] using h0.symm
    show pubkeysWalk buf (ks2.length + 1) p = _
    rw [pubkeysWalk]
    simp only [hget]
    rw [if_neg hb1, if_neg hb2]
  | cons k good ih =>
    intro bad ks2 buf rest p hwf hb1 hb2 hdrop
    have hget : buf.getD p 0 = k.tag := by
      have h0 := getD_eq_getD_drop buf p 0
      rw [hdrop] at h0
      simpa [encKeys] using h0.symm
    have hdrop2 : buf.drop (p + 1 + k.bytes.length) =
        encKeys (good ++ bad :: ks2) ++ rest := by
      have hthis : (k.tag :: k.bytes).length = 1 + k.bytes.length := by
        simp only [List.length_cons]
        omega
      calc buf.drop (p + 1 + k.bytes.length)
          = (buf.drop p).drop (1 + k.bytes.length) := by
            rw [List.drop_drop]
            congr 1
            omega
        _ = encKeys (good ++ bad :: ks2) ++ rest := by
            rw [hdrop]
            have he : encKeys (k :: (good ++ bad :: ks2)) =
                (k.tag :: k.bytes) ++ encKeys (good ++ bad :: ks2) := by
              simp [encKeys]
            rw [show (k :: good) ++ bad :: ks2 = k :: (good ++ bad :: ks2) from rfl]
            rw [he, List.append_assoc, ← hthis, List.drop_left]
    have hrec := ih bad ks2 buf rest (p + 1 + k.bytes.length)
      (fun x hx => hwf x (by simp [hx])) hb1 hb2 hdrop2
    rcases hwf k (by simp) with ⟨ht, hl⟩ | ⟨ht, hl⟩
    · show pubkeysWalk buf ((good ++ bad :: ks2).length + 1) p = _
      rw [pubkeysWalk]
      simp only [hget, ht, eq_self_iff_true, if_true]
      rw [show p + 1 + PK_LEN_25519 = p + 1 + k.bytes.length by rw [hl]]
      exact hrec
    · show pubkeysWalk buf ((good ++ bad :: ks2).length + 1) p = _
      rw [pubkeysWalk]
      simp only [hget, ht]
      rw [if_neg (show ¬ (key_secp256k1 = key_ed25519) by decide)]
      simp only [eq_self_iff_true, if_true]
      rw [show p + 1 + COMPRESSED_SECP256K1_PK_LEN = p + 1 + k.bytes.length by rw [hl]]
      exact hrec

/-- The indexed-signature walk over an encoded well-formed signature list
ends exactly at the end of the encoding. -/
theorem sigsWalk_enc :
    ∀ (sgs : List IndexedSig) (buf rest : Bytes) (p : Nat),
      (∀ g ∈ sgs, sigWf g) → buf.drop p = encSigs sgs ++ rest →
      sigsWalk buf sgs.length p = .ok (p + (encSigs sgs).length) := by
  intro sgs
  induction sgs with
  | nil =>
    intro buf rest p _ _
    simp [sigsWalk, encSigs]
  | cons g sgs ih =>
    intro buf rest p hwf hdrop
    have hget : buf.getD (p + 1) 0 = g.tag := by
      have h0 := getD_eq_getD_drop buf p 1
      rw [hdrop] at h0
      simpa [encSigs] using h0.symm
    have hdrop2 : buf.drop (p + 2 + g.bytes.length) = encSigs sgs ++ rest := by
      have hthis : (g.slot :: g.tag :: g.bytes).length = 2 + g.bytes.length := by
        simp only [List.length_cons]
        omega
      calc buf.drop (p + 2 + g.bytes.length)
          = (buf.drop p).drop (2 + g.bytes.length) := by
            rw [List.drop_drop]
            congr 1
            omega
        _ = encSigs sgs ++ rest := by
            rw [hdrop]
            have he : encSigs (g :: sgs) =
                (g.slot :: g.tag :: g.bytes) ++ encSigs sgs := by
              simp [encSigs]
            rw [he, List.append_assoc, ← hthis, List.drop_left]
    have hlen : (encSigs (g :: sgs)).length =
        2 + g.bytes.length + (encSigs sgs).length := by
      simp [encSigs]
      omega
    rcases hwf g (by simp) with ⟨ht, hl⟩ | ⟨ht, hl⟩
    · show sigsWalk buf (sgs.length + 1) p = _
      rw [sigsWalk]
      simp only [hget, ht, eq_self_iff_true, if_true]
      rw [show p + 2 + ED25519_SIGNATURE_SIZE = p + 2 + g.bytes.length by rw [hl]]
      rw [ih buf rest _ (fun x hx => hwf x (by simp [hx])) hdrop2]
      rw [hlen]
      congr 1
      omega
    · show sigsWalk buf (sgs.length + 1) p = _
      rw [sigsWalk]
      simp only [hget, ht]
      rw [if_neg (show ¬ (key_secp256k1 = key_ed25519) by decide)]
      simp only [eq_self_iff_true, if_true]
      rw [show p + 2 + SIG_SECP256K1_LEN = p + 2 + g.bytes.length by rw [hl]]
      rw [ih buf rest _ (fun x hx => hwf x (by simp [hx])) hdrop2]
      rw [hlen]
      congr 1
      omega

/-- The indexed-signature walk fails with `zxerr_unknown` at the first
entry whose tag is neither ed25519 nor secp256k1. -/
theorem sigsWalk_enc_bad :
    ∀ (good : List IndexedSig) (bad : IndexedSig) (sgs2 : List IndexedSig)
      (buf rest : Bytes) (p : Nat),
      (∀ g ∈ good, sigWf g) →
      bad.tag ≠ key_ed25519 → bad.tag ≠ key_secp256k1 →
      buf.drop p = encSigs (good ++ bad :: sgs2) ++ rest →
      sigsWalk buf (good ++ bad :: sgs2).length p = .error .unknown := by
  intro good
  induction good with
  | nil =>
    intro bad sgs2 buf rest p _ hb1 hb2 hdrop
    have hget : buf.getD (p + 1) 0 = bad.tag := by
      have h0 := getD_eq_getD_drop buf p 1
      rw [hdrop] at h0
      simpa [encSigs] using h0.symm
    show sigsWalk buf (sgs2.length + 1) p = _
    rw [sigsWalk]
    simp only [hget]
    rw [if_neg hb1, if_neg hb2]
  | cons g good ih =>
    intro bad sgs2 buf rest p hwf hb1 hb2 hdrop
    have hget : buf.getD (p + 1) 0 = g.tag := by
      have h0 := getD_eq_getD_drop buf p 1
      rw [hdrop] at h0
      simpa [encSigs] using h0.symm
    have hdrop2 : buf.drop (p + 2 + g.bytes.length) =
        encSigs (good ++ bad :: sgs2) ++ rest := by
      have hthis : (g.slot :: g.tag :: g.bytes).length = 2 + g.bytes.length := by
        simp only [List.length_cons]
        omega
      calc buf.drop (p + 2 + g.bytes.length)
          = (buf.drop p).drop (2 + g.bytes.length) := by
            rw [List.drop_drop]
            congr 1
            omega
        _ = encSigs (good ++ bad :: sgs2) ++ rest := by
            rw [hdrop]
            have he : encSigs (g :: (good ++ bad :: sgs2)) =
                (g.slot :: g.tag :: g.bytes) ++ encSigs (good ++ bad :: sgs2) := by
              simp [encSigs]
            rw [show (g :: good) ++ bad :: sgs2 = g :: (good ++ bad :: sgs2) from rfl]
            rw [he, List.append_assoc, ← hthis, List.drop_left]
    have hrec := ih bad sgs2 buf rest (p + 2 + g.bytes.length)
      (fun x hx => hwf x (by simp [hx])) hb1 hb2 hdrop2
    rcases hwf g (by simp) with ⟨ht, hl⟩ | ⟨ht, hl⟩
    · show sigsWalk buf ((good ++ bad :: sgs2).length + 1) p = _
      rw [sigsWalk]
      simp only [hget, ht, eq_self_iff_true, if_true]
      rw [show p + 2 + ED25519_SIGNATURE_SIZE = p + 2 + g.bytes.length by rw [hl]]
      exact hrec
    · show sigsWalk buf ((good ++ bad :: sgs2).length + 1) p = _
      rw [sigsWalk]
      simp only [hget, ht]
      rw [if_neg (show ¬ (key_secp256k1 = key_ed25519) by decide)]
      simp only [eq_self_iff_true, if_true]
      rw [show p + 2 + SIG_SECP256K1_LEN = p + 2 + g.bytes.length by rw [hl]]
      exact hrec

/-- C6: `crypto_hashSigSection` returns SHA-256 over, in this exact
order: the optional prefix byte; the 4-byte hash count; the concatenated
32-byte hashes; the 1-byte signer discriminant; for `PubKeys` a 4-byte
key count then the concatenated tagged public keys, and for `Address`
the raw address bytes; then the 4-byte signature count and the
concatenated indexed signatures — and it fails with an error (producing
no digest) whenever any public-key or signature key-kind tag is neither
ed25519 nor secp256k1, under either signer discriminant: an invalid
public-key tag (`PubKeys`), an invalid signature tag after a valid
key walk (`PubKeys`), or an invalid signature tag (`Address`). -/
theorem claim_C6_sig_section_stream (sha : Bytes → Bytes) :
    (∀ (pfx : Option Nat) (s : SignatureSection) (ks : List TaggedKey)
        (sgs : List IndexedSig) (restK restS : Bytes),
      (∀ k ∈ ks, keyWf k) → (∀ g ∈ sgs, sigWf g) →
      s.pubKeys = encKeys ks ++ restK → s.pubKeysLen = ks.length →
      s.indexedSignatures = encSigs sgs ++ restS → s.signaturesLen = sgs.length →
      s.signerDiscriminant = PubKeysDisc →
      crypto_hashSigSection sha pfx s = .ok (padTake HASH_LEN (sha (
        (match pfx with | some p => [p % 256] | none => ([] : Bytes)) ++
        le32 s.hashes.length ++ (s.hashes.map (padTake HASH_LEN)).flatten ++
        [s.signerDiscriminant % 256] ++
        le32 ks.length ++ encKeys ks ++ le32 sgs.length ++ encSigs sgs)))) ∧
    (∀ (pfx : Option Nat) (s : SignatureSection) (sgs : List IndexedSig)
        (restS : Bytes),
      (∀ g ∈ sgs, sigWf g) →
      s.indexedSignatures = encSigs sgs ++ restS → s.signaturesLen = sgs.length →
      s.signerDiscriminant = AddressDisc →
      crypto_hashSigSection sha pfx s = .ok (padTake HASH_LEN (sha (
        (match pfx with | some p => [p % 256] | none => ([] : Bytes)) ++
        le32 s.hashes.length ++ (s.hashes.map (padTake HASH_LEN)).flatten ++
        [s.signerDiscriminant % 256] ++
        s.addressBytes ++ le32 sgs.length ++ encSigs sgs)))) ∧
    (∀ (pfx : Option Nat) (s : SignatureSection) (good : List TaggedKey)
        (bad : TaggedKey) (ks2 : List TaggedKey) (restK : Bytes),
      (∀ k ∈ good, keyWf k) →
      bad.tag ≠ key_ed25519 → bad.tag ≠ key_secp256k1 →
      s.pubKeys = encKeys (good ++ bad :: ks2) ++ restK →
      s.pubKeysLen = (good ++ bad :: ks2).length →
      s.signerDiscriminant = PubKeysDisc →
      crypto_hashSigSection sha pfx s = .error .unknown) ∧
    (∀ (pfx : Option Nat) (s : SignatureSection) (ks : List TaggedKey)
        (restK : Bytes) (good : List IndexedSig) (bad : IndexedSig)
        (sgs2 : List IndexedSig) (restS : Bytes),
      (∀ k ∈ ks, keyWf k) → (∀ g ∈ good, sigWf g) →
      bad.tag ≠ key_ed25519 → bad.tag ≠ key_secp256k1 →
      s.pubKeys = encKeys ks ++ restK → s.pubKeysLen = ks.length →
      s.indexedSignatures = encSigs (good ++ bad :: sgs2) ++ restS →
      s.signaturesLen = (good ++ bad :: sgs2).length →
      s.signerDiscriminant = PubKeysDisc →
      crypto_hashSigSection sha pfx s = .error .unknown) ∧
    (∀ (pfx : Option Nat) (s : SignatureSection) (good : List IndexedSig)
        (bad : IndexedSig) (sgs2 : List IndexedSig) (restS : Bytes),
      (∀ g ∈ good, sigWf g) →
      bad.tag ≠ key_ed25519 → bad.tag ≠ key_secp256k1 →
      s.indexedSignatures = encSigs (good ++ bad :: sgs2) ++ restS →
      s.signaturesLen = (good ++ bad :: sgs2).length →
      s.signerDiscriminant = AddressDisc →
      crypto_hashSigSection sha pfx s = .error .unknown) := by
  refine ⟨?_, ?_, ?_, ?_, ?_⟩
  · intro pfx s ks sgs restK restS hkw hsw hpk hlk hsg hls hdisc
    have hwalkK : pubkeysWalk s.pubKeys s.pubKeysLen 0 =
        .ok (0 + (encKeys ks).length) := by
      rw [hpk, hlk]
      exact pubkeysWalk_enc ks (encKeys ks ++ restK) restK 0 hkw (by simp)
    have hwalkS : sigsWalk s.indexedSignatures s.signaturesLen 0 =
        .ok (0 + (encSigs sgs).length) := by
      rw [hsg, hls]
      exact sigsWalk_enc sgs (encSigs sgs ++ restS) restS 0 hsw (by simp)
    rw [crypto_hashSigSection, crypto_hashSigSection_stream.eq_def]
    simp only [hdisc, eq_self_iff_true, if_true, hwalkK, hwalkS, Nat.zero_add]
    rw [hpk, List.take_left, hsg, List.take_left, hlk, hls]
    simp [List.append_assoc]
  · intro pfx s sgs restS hsw hsg hls hdisc
    have hwalkS : sigsWalk s.indexedSignatures s.signaturesLen 0 =
        .ok (0 + (encSigs sgs).length) := by
      rw [hsg, hls]
      exact sigsWalk_enc sgs (encSigs sgs ++ restS) restS 0 hsw (by simp)
    rw [crypto_hashSigSection, crypto_hashSigSection_stream.eq_def]
    simp only [hdisc]
    rw [if_neg (show ¬ (AddressDisc = PubKeysDisc) by decide)]
    simp only [eq_self_iff_true, if_true, hwalkS, Nat.zero_add]
    rw [hsg, List.take_left, hls]
  · intro pfx s good bad ks2 restK hkw hb1 hb2 hpk hlk hdisc
    have hwalkK : pubkeysWalk s.pubKeys s.pubKeysLen 0 = .error .unknown := by
      rw [hpk, hlk]
      exact pubkeysWalk_enc_bad good bad ks2 _ restK 0 hkw hb1 hb2 (by simp)
    rw [crypto_hashSigSection, crypto_hashSigSection_stream.eq_def]
    simp only [hdisc, eq_self_iff_true, if_true, hwalkK]
  · intro pfx s ks restK good bad sgs2 restS hkw hsw hb1 hb2 hpk hlk hsg hls hdisc
    have hwalkK : pubkeysWalk s.pubKeys s.pubKeysLen 0 =
        .ok (0 + (encKeys ks).length) := by
      rw [hpk, hlk]
      exact pubkeysWalk_enc ks (encKeys ks ++ restK) restK 0 hkw (by simp)
    have hwalkS : sigsWalk s.indexedSignatures s.signaturesLen 0 =
        .error .unknown := by
      rw [hsg, hls]
      exact sigsWalk_enc_bad good bad sgs2 _ restS 0 hsw hb1 hb2 (by simp)
    rw [crypto_hashSigSection, crypto_hashSigSection_stream.eq_def]
    simp only [hdisc, eq_self_iff_true, if_true, hwalkK, hwalkS]
  · intro pfx s good bad sgs2 restS hsw hb1 hb2 hsg hls hdisc
    have hwalkS : sigsWalk s.indexedSignatures s.signaturesLen 0 =
        .error .unknown := by
      rw [hsg, hls]
      exact sigsWalk_enc_bad good bad sgs2 _ restS 0 hsw hb1 hb2 (by simp)
    rw [crypto_hashSigSection, crypto_hashSigSection_stream.eq_def]
    simp only [hdisc]
    rw [if_neg (show ¬ (AddressDisc = PubKeysDisc) by decide)]
    simp only [eq_self_iff_true, if_true, hwalkS]



set_option maxRecDepth 400000 in
/-- C6 witness: on `sC6` the digest preimage is exactly the specified
concatenation; on `sC6bad` (invalid public-key tag) the call fails; and
on `sC6badSig` (valid public-key tag, invalid signature tag) the call
fails. -/
theorem claim_C6_sig_section_stream_w :
    crypto_hashSigSection envA.sha none sC6 =
      .ok (padTake HASH_LEN (envA.sha (
        ([] : Bytes) ++ le32 sC6.hashes.length ++
        (sC6.hashes.map (padTake HASH_LEN)).flatten ++
        [sC6.signerDiscriminant % 256] ++
        le32 1 ++ encKeys [⟨key_ed25519, List.replicate 32 7⟩] ++
        le32 1 ++ encSigs [⟨2, key_ed25519, List.replicate 64 9⟩]))) ∧
    crypto_hashSigSection envA.sha none sC6bad = .error .unknown ∧
    crypto_hashSigSection envA.sha none sC6badSig = .error .unknown :=
  ⟨(claim_C6_sig_section_stream envA.sha).1 none sC6
      [⟨key_ed25519, List.replicate 32 7⟩] [⟨2, key_ed25519, List.replicate 64 9⟩]
      [] []
      (by
        intro k hk
        rw [List.mem_singleton] at hk
        subst hk
        exact Or.inl ⟨rfl, rfl⟩)
      (by
        intro g hg
        rw [List.mem_singleton] at hg
        subst hg
        exact Or.inl ⟨rfl, rfl⟩)
      (by decide) rfl (by decide) rfl rfl,
   (claim_C6_sig_section_stream envA.sha).2.2.1 none sC6bad
      [] ⟨5, List.replicate 32 7⟩ [] []
      (by intro k hk; simp at hk)
      (by decide) (by decide)
      (by decide) rfl rfl,
   (claim_C6_sig_section_stream envA.sha).2.2.2.1 none sC6badSig
      [⟨key_ed25519, List.replicate 32 7⟩] []
      [] ⟨2, 5, List.replicate 64 9⟩ [] []
      (by
        intro k hk
        rw [List.mem_singleton] at hk
        subst hk
        exact Or.inl ⟨rfl, rfl⟩)
      (by intro g hg; simp at hg)
      (by decide) (by decide)
      (by decide) rfl
      (by decide) rfl rfl⟩


/-! ### Claims C10 and C2 (amended) -/


/-- `headD` as an indexed read. -/
theorem headD_eq_getD (l : Bytes) (d : Nat) : l.headD d = l.getD 0 d := by
  cases l <;> simp

/-- `getLastD` as an indexed read. -/
theorem getLastD_eq_getD (l : Bytes) (d : Nat) :
    l.getLastD d = l.getD (l.length - 1) d := by
  cases l with
  | nil => simp
  | cons a t =>
    simp only [List.getLastD_eq_getLast?, List.getD_eq_getElem?_getD,
      List.getLast?_eq_getElem?]

/-- Length of a buffer slice. -/
theorem length_slice (b : Bytes) (p n : Nat) :
    (slice b p n).length = min n (b.length - p) := by
  simp [slice]

/-- On any run of the post-raw-signature stage that reaches the prefixed
hashing of the signed raw section, the committed indexed-signature bytes
are the 66 output-buffer bytes starting at offset 64 (the last salt
byte), and the salt is the 32 bytes at offset 33. -/
theorem signAfterRaw_committed (env : SignEnv) (tx : TxObj) (buf2 : Bytes)
    (acc1 : List Bytes) (ids1 : List Nat) :
    (signAfterRaw env tx buf2 acc1 ids1).committedIndexedSigs ≠ [] →
    (signAfterRaw env tx buf2 acc1 ids1).saltBytes =
      slice buf2 PK_LEN_25519_PLUS_TAG SALT_LEN ∧
    (signAfterRaw env tx buf2 acc1 ids1).committedIndexedSigs =
      slice buf2 64 (1 + SIG_LEN_25519_PLUS_TAG) := by
  simp only [signAfterRaw]
  repeat' split
  all_goals intro h
  all_goals first
    | exact absurd rfl h
    | exact ⟨rfl, rfl⟩

/-- C10: when `crypto_sign` builds the signed variant of the raw
signature section, the 1-byte slot index committed before the signature
bytes (the head of `committedIndexedSigs`, which `signedRawSigSection`
takes from the output-buffer byte at offset 64, immediately preceding
the raw signature's tag) IS the last byte of the salt region; the digest
folded into the wrapper therefore commits slot index 0 iff the final
salt byte is `0x00` — and inside `crypto_sign`, which zeroes the buffer
on entry and never writes the salt, that byte is always 0. -/
theorem claim_C10_slot_byte (env : SignEnv) (tx : TxObj) (L : Nat) (out : Bytes) :
    (crypto_sign env tx L out).committedIndexedSigs ≠ [] →
    (crypto_sign env tx L out).committedIndexedSigs.headD 0 =
      (crypto_sign env tx L out).saltBytes.getLastD 0 ∧
    (crypto_sign env tx L out).saltBytes.getLastD 0 = 0 ∧
    ((crypto_sign env tx L out).committedIndexedSigs.headD 0 = 0 ↔
      (crypto_sign env tx L out).saltBytes.getLastD 0 = 0) := by
  simp only [crypto_sign]
  split
  · intro h
    exact absurd rfl h
  rename_i hmin
  split
  · intro h
    exact absurd rfl h
  rename_i pk0 hpk0
  split
  · intro h
    exact absurd rfl h
  split
  · intro h
    exact absurd rfl h
  rename_i s0 hs0
  intro h
  obtain ⟨hsalt, hcommit⟩ := signAfterRaw_committed env tx _ _ _ h
  rw [hsalt, hcommit]
  have hLlen : minimumBufferSize ≤ L := by omega
  have hlen1 : (writeAt (zeros L) 1 (padTake PK_LEN_25519 pk0)).length = L := by
    rw [length_writeAt]
    · exact length_zeros L
    · rw [length_padTake, length_zeros]
      simp only [minimumBufferSize, PK_LEN_25519_PLUS_TAG, SALT_LEN,
        SIG_LEN_25519_PLUS_TAG, PK_LEN_25519] at hmin ⊢
      omega
  have hlen2 : (writeAt (writeAt (zeros L) 1 (padTake PK_LEN_25519 pk0)) 66
      (padTake ED25519_SIGNATURE_SIZE s0)).length = L := by
    rw [length_writeAt]
    · exact hlen1
    · rw [length_padTake, hlen1]
      simp only [minimumBufferSize, PK_LEN_25519_PLUS_TAG, SALT_LEN,
        SIG_LEN_25519_PLUS_TAG, ED25519_SIGNATURE_SIZE] at hmin ⊢
      omega
  have hLbig : 239 ≤ L := by
    simp only [minimumBufferSize, PK_LEN_25519_PLUS_TAG, SALT_LEN,
      SIG_LEN_25519_PLUS_TAG] at hmin
    omega
  have h64 : (writeAt (writeAt (zeros L) 1 (padTake PK_LEN_25519 pk0)) 66
      (padTake ED25519_SIGNATURE_SIZE s0)).getD 64 0 = 0 := by
    rw [getD_writeAt_lt _ _ _ _ (by decide) (by rw [hlen1]; omega)]
    rw [getD_writeAt_ge _ _ _ _ (by rw [length_padTake]; decide)
      (by rw [length_zeros]; omega)]
    exact getD_zeros L 64
  have hhead : (slice (writeAt (writeAt (zeros L) 1 (padTake PK_LEN_25519 pk0)) 66
      (padTake ED25519_SIGNATURE_SIZE s0)) 64 (1 + SIG_LEN_25519_PLUS_TAG)).headD 0 = 0 := by
    rw [headD_eq_getD, getD_slice]
    rw [if_pos (by decide)]
    simpa using h64
  have hlast : (slice (writeAt (writeAt (zeros L) 1 (padTake PK_LEN_25519 pk0)) 66
      (padTake ED25519_SIGNATURE_SIZE s0)) PK_LEN_25519_PLUS_TAG SALT_LEN).getLastD 0 = 0 := by
    rw [getLastD_eq_getD, length_slice, hlen2]
    have hm : min SALT_LEN (L - PK_LEN_25519_PLUS_TAG) = 32 := by
      simp only [SALT_LEN, PK_LEN_25519_PLUS_TAG]
      omega
    rw [hm, getD_slice]
    rw [if_pos (by decide)]
    simpa using h64
  rw [hhead, hlast]
  simp

/-- Any error return from the post-raw-signature stage leaves every
output byte from offset 130 on zero (the second salt region is never
written, a failed wrapper signing zeroes its own 64-byte region, and the
trailing index lists are only written on success). -/
theorem signAfterRaw_err_suffix (env : SignEnv) (tx : TxObj) (buf2 : Bytes)
    (acc1 : List Bytes) (ids1 : List Nat)
    (hlen : 239 ≤ buf2.length)
    (hsuf : ∀ i, 130 ≤ i → buf2.getD i 0 = 0) :
    (signAfterRaw env tx buf2 acc1 ids1).err ≠ Zxerr.ok →
    ∀ i, 130 ≤ i → (signAfterRaw env tx buf2 acc1 ids1).buf.getD i 0 = 0 := by
  have hwr : ∀ i, 130 ≤ i →
      (writeAt buf2 163 (zeros 64)).getD i 0 = 0 := by
    intro i hi
    by_cases h1 : i < 163
    · rw [getD_writeAt_lt _ _ _ _ h1 (by omega)]
      exact hsuf i hi
    · by_cases h2 : i < 227
      · rw [getD_writeAt_inside _ _ _ _ (by omega) (by rw [length_zeros]; omega)
          (by omega)]
        exact getD_zeros _ _
      · rw [getD_writeAt_ge _ _ _ _ (by rw [length_zeros]; omega) (by omega)]
        exact hsuf i hi
  simp only [signAfterRaw]
  repeat' split
  all_goals intro h i hi
  all_goals first
    | exact hsuf i hi
    | exact hwr i hi
    | exact absurd rfl h

/-- C2 (amended): a failed `crypto_sign` call does NOT leave the whole
buffer zeroed (see the counterexample: the already-written public key
persists); what holds is: with a sufficient buffer, on any error return
every output byte from offset 130 on is zero — the entry `MEMZERO` plus
the failing signing step's own zeroing cover everything past the
public-key/salt/raw-signature region, and the trailing index lists are
never written; and `crypto_sign_masp` performs no output writes before
its final success step, so on error it returns the buffer exactly as
supplied (in particular it does not zero it). -/
theorem claim_C2_error_buffer :
    (∀ (env : SignEnv) (tx : TxObj) (L : Nat) (out : Bytes),
      minimumBufferSize ≤ L →
      (crypto_sign env tx L out).err ≠ Zxerr.ok →
      ∀ i, 130 ≤ i → (crypto_sign env tx L out).buf.getD i 0 = 0) ∧
    (∀ (env : MaspEnv) (tx : MaspTx) (L : Nat) (out : Bytes),
      (crypto_sign_masp env tx L out).err ≠ Zxerr.ok →
      (crypto_sign_masp env tx L out).out = out) := by
  constructor
  · intro env tx L out hL
    simp only [crypto_sign]
    split
    · omega
    rename_i hmin
    have hLbig : 239 ≤ L := by
      simp only [minimumBufferSize, PK_LEN_25519_PLUS_TAG, SALT_LEN,
        SIG_LEN_25519_PLUS_TAG] at hL
      omega
    split
    · intro _ i _
      exact getD_zeros L i
    rename_i pk0 hpk0
    have hlen1 : (writeAt (zeros L) 1 (padTake PK_LEN_25519 pk0)).length = L := by
      rw [length_writeAt]
      · exact length_zeros L
      · rw [length_padTake, length_zeros]
        simp only [PK_LEN_25519]
        omega
    have hsuf1 : ∀ i, 130 ≤ i →
        (writeAt (zeros L) 1 (padTake PK_LEN_25519 pk0)).getD i 0 = 0 := by
      intro i hi
      rw [getD_writeAt_ge _ _ _ _ (by rw [length_padTake]; simp only [PK_LEN_25519]; omega)
        (by rw [length_zeros]; omega)]
      exact getD_zeros L i
    split
    · intro _ i hi
      exact hsuf1 i hi
    split
    · intro _ i hi
      simp only [signFail]
      rw [getD_writeAt_ge _ _ _ _ (by rw [length_zeros]; omega)
        (by rw [hlen1]; omega)]
      exact hsuf1 i hi
    rename_i s0 hs0
    have hlen2 : (writeAt (writeAt (zeros L) 1 (padTake PK_LEN_25519 pk0)) 66
        (padTake ED25519_SIGNATURE_SIZE s0)).length = L := by
      rw [length_writeAt]
      · exact hlen1
      · rw [length_padTake, hlen1]
        simp only [ED25519_SIGNATURE_SIZE]
        omega
    have hsuf2 : ∀ i, 130 ≤ i →
        (writeAt (writeAt (zeros L) 1 (padTake PK_LEN_25519 pk0)) 66
          (padTake ED25519_SIGNATURE_SIZE s0)).getD i 0 = 0 := by
      intro i hi
      rw [getD_writeAt_ge _ _ _ _
        (by rw [length_padTake]; simp only [ED25519_SIGNATURE_SIZE]; omega)
        (by rw [hlen1]; omega)]
      exact hsuf1 i hi
    exact signAfterRaw_err_suffix env tx _ _ _ (by rw [hlen2]; omega) hsuf2
  · intro env tx L out
    simp only [crypto_sign_masp]
    repeat' split
    all_goals intro h
    all_goals first
      | rfl
      | exact absurd rfl h


set_option maxRecDepth 400000 in
/-- C10 witness: the sample successful run reaches the prefixed hashing
and its committed slot byte is 0, equal to the last salt byte. -/
theorem claim_C10_slot_byte_w :
    (crypto_sign envA txSimple 239 (zeros 239)).committedIndexedSigs.headD 0 =
      (crypto_sign envA txSimple 239 (zeros 239)).saltBytes.getLastD 0 ∧
    (crypto_sign envA txSimple 239 (zeros 239)).saltBytes.getLastD 0 = 0 ∧
    ((crypto_sign envA txSimple 239 (zeros 239)).committedIndexedSigs.headD 0 = 0 ↔
      (crypto_sign envA txSimple 239 (zeros 239)).saltBytes.getLastD 0 = 0) :=
  claim_C10_slot_byte envA txSimple 239 (zeros 239) (by decide)

set_option maxRecDepth 400000 in
/-- C2 witness: with the signing oracle failing, every byte of the
returned buffer from offset 130 on is zero (sampled at offset 150), and
an early-failing `crypto_sign_masp` returns the buffer as supplied. -/
theorem claim_C2_error_buffer_w :
    (crypto_sign envAsignFail txSimple 239 (zeros 239)).buf.getD 150 0 = 0 ∧
    (crypto_sign_masp envMmasterFail txM1 64 (zeros 64)).out = zeros 64 :=
  ⟨claim_C2_error_buffer.1 envAsignFail txSimple 239 (zeros 239) (by decide)
      (by decide) 150 (by decide),
   claim_C2_error_buffer.2 envMmasterFail txM1 64 (zeros 64) (by decide)⟩


end Namada
